import Mathlib

/-!
Verification development for the sql-formatter core: token disambiguation
(`src/lexer/disambiguateTokens.ts`), the statement formatter
(`StatementFormatter`), and the public `format` entry point.  Definitions are
translated from the TypeScript source; components of the repository that are
not part of the provided sources (token.ts helpers, the lexer, the string
builder, option validation) are modelled from the specification and marked as
such in their doc comments.
-/

/-- Token categories.  The union of the categories used by the two source
files: the disambiguator calls the bracket category `OPEN_PAREN`, while the
statement formatter (from an earlier layout of the same code base) calls it
`BLOCK_START`; they denote the same category, so it appears once here and the
formatter's names are definitions aliasing it. -/
inductive TokenType where
  | RESERVED_COMMAND
  | RESERVED_BINARY_COMMAND
  | RESERVED_DEPENDENT_CLAUSE
  | RESERVED_JOIN_CONDITION
  | RESERVED_LOGICAL_OPERATOR
  | RESERVED_KEYWORD
  | RESERVED_FUNCTION_NAME
  | RESERVED_DATA_TYPE
  | RESERVED_PARAMETERIZED_DATA_TYPE
  | RESERVED_CASE_START
  | RESERVED_CASE_END
  | IDENTIFIER
  | ARRAY_IDENTIFIER
  | ARRAY_KEYWORD
  | QUOTED_IDENTIFIER
  | STRING
  | VARIABLE
  | PLACEHOLDER
  | NUMBER
  | OPERATOR
  | PROPERTY_ACCESS_OPERATOR
  | OPEN_PAREN
  | CLOSE_PAREN
  | LINE_COMMENT
  | BLOCK_COMMENT
  | EOF
  deriving DecidableEq, Fintype

/-- Alias used by the statement formatter for `(`-like brackets. -/
def TokenType.BLOCK_START : TokenType := TokenType.OPEN_PAREN

/-- Alias used by the statement formatter for `)`-like brackets. -/
def TokenType.BLOCK_END : TokenType := TokenType.CLOSE_PAREN

/-- A lexer token: category, original source slice (`raw`), display text
(`text`), canonicalized `value`, and the literal whitespace run that preceded
the token in the source. -/
structure Token where
  type : TokenType
  raw : String
  text : String
  value : String
  whitespaceBefore : String
  deriving DecidableEq

/-- Modelled from the spec: token.ts `EOF_TOKEN`, the sentinel returned by
out-of-bounds token lookups. -/
def EOF_TOKEN : Token :=
  { type := TokenType.EOF, raw := "", text := "", value := "", whitespaceBefore := "" }

instance : Inhabited Token := ⟨EOF_TOKEN⟩

/-- Modelled from the spec: token.ts `isReserved` — true for the `RESERVED_*`
categories (spec §3 invariants and the formatter's comment "if token is a
Reserved Keyword, Command, Binary Command, Dependent Clause, Logical Operator,
CASE, END"). -/
def isReserved (t : TokenType) : Bool :=
  match t with
  | TokenType.RESERVED_COMMAND => true
  | TokenType.RESERVED_BINARY_COMMAND => true
  | TokenType.RESERVED_DEPENDENT_CLAUSE => true
  | TokenType.RESERVED_JOIN_CONDITION => true
  | TokenType.RESERVED_LOGICAL_OPERATOR => true
  | TokenType.RESERVED_KEYWORD => true
  | TokenType.RESERVED_FUNCTION_NAME => true
  | TokenType.RESERVED_DATA_TYPE => true
  | TokenType.RESERVED_PARAMETERIZED_DATA_TYPE => true
  | TokenType.RESERVED_CASE_START => true
  | TokenType.RESERVED_CASE_END => true
  | _ => false

/-- Translation of `isComment` (disambiguateTokens.ts). -/
def isComment (t : Token) : Bool :=
  t.type == TokenType.BLOCK_COMMENT || t.type == TokenType.LINE_COMMENT

/-- Translation of `isOpenParen` (disambiguateTokens.ts):
`t.type === TokenType.OPEN_PAREN && t.text === '('`. -/
def isOpenParen (t : Token) : Bool :=
  t.type == TokenType.OPEN_PAREN && t.text == "("

/-- Translation of `isOpenBracket` (disambiguateTokens.ts):
`t.type === TokenType.OPEN_PAREN && t.text === '['`. -/
def isOpenBracket (t : Token) : Bool :=
  t.type == TokenType.OPEN_PAREN && t.text == "["

/-- Property-access operator test used by `propertyNameKeywordToIdent`. -/
def isDot (t : Token) : Bool :=
  t.type == TokenType.PROPERTY_ACCESS_OPERATOR

/-- Translation of `nextNonCommentToken` (disambiguateTokens.ts) with
direction `+1`: the first non-comment token strictly after index `i`, if
any. -/
def nextNonCommentToken (tokens : List Token) (i : Nat) : Option Token :=
  (tokens.drop (i + 1)).find? (fun t => !isComment t)

/-- Translation of `prevNonCommentToken` (disambiguateTokens.ts), i.e.
`nextNonCommentToken` with direction `-1`: the first non-comment token
strictly before index `i`, scanning backwards. -/
def prevNonCommentToken (tokens : List Token) (i : Nat) : Option Token :=
  ((tokens.take i).reverse).find? (fun t => !isComment t)

/-- JavaScript's `Array.prototype.map` with the `(element, index, array)`
callback signature, as used by `disambiguateTokens`: the callback sees the
whole input array of the current pass.  `orig` is that array and `i` the index
of the head of `l` in it. -/
def jsMapFrom (f : Token → Nat → List Token → Token) (orig : List Token) :
    Nat → List Token → List Token
  | _, [] => []
  | i, t :: rest => f t i orig :: jsMapFrom f orig (i + 1) rest

/-- One `map` pass over a token array, JavaScript-style. -/
def jsMap (f : Token → Nat → List Token → Token) (tokens : List Token) : List Token :=
  jsMapFrom f tokens 0 tokens

/-- Translation of `propertyNameKeywordToIdent` (disambiguateTokens.ts):
a `RESERVED_*` token whose nearest non-comment neighbour on either side is a
property-access operator becomes an `IDENTIFIER` with its text reset to the
raw form. -/
def propertyNameKeywordToIdent (token : Token) (i : Nat) (tokens : List Token) : Token :=
  if isReserved token.type then
    if (prevNonCommentToken tokens i).any isDot then
      { token with type := TokenType.IDENTIFIER, text := token.raw }
    else if (nextNonCommentToken tokens i).any isDot then
      { token with type := TokenType.IDENTIFIER, text := token.raw }
    else token
  else token

/-- Translation of `funcNameToIdent` (disambiguateTokens.ts): a
`RESERVED_FUNCTION_NAME` whose next non-comment token is missing or is not
`(` becomes an `IDENTIFIER` with its text reset to the raw form. -/
def funcNameToIdent (token : Token) (i : Nat) (tokens : List Token) : Token :=
  if token.type == TokenType.RESERVED_FUNCTION_NAME then
    if !((nextNonCommentToken tokens i).any isOpenParen) then
      { token with type := TokenType.IDENTIFIER, text := token.raw }
    else token
  else token

/-- Translation of `dataTypeToParameterizedDataType` (disambiguateTokens.ts). -/
def dataTypeToParameterizedDataType (token : Token) (i : Nat) (tokens : List Token) : Token :=
  if token.type == TokenType.RESERVED_DATA_TYPE then
    if (nextNonCommentToken tokens i).any isOpenParen then
      { token with type := TokenType.RESERVED_PARAMETERIZED_DATA_TYPE }
    else token
  else token

/-- Translation of `identToArrayIdent` (disambiguateTokens.ts). -/
def identToArrayIdent (token : Token) (i : Nat) (tokens : List Token) : Token :=
  if token.type == TokenType.IDENTIFIER then
    if (nextNonCommentToken tokens i).any isOpenBracket then
      { token with type := TokenType.ARRAY_IDENTIFIER }
    else token
  else token

/-- Translation of `dataTypeToArrayKeyword` (disambiguateTokens.ts). -/
def dataTypeToArrayKeyword (token : Token) (i : Nat) (tokens : List Token) : Token :=
  if token.type == TokenType.RESERVED_DATA_TYPE then
    if (nextNonCommentToken tokens i).any isOpenBracket then
      { token with type := TokenType.ARRAY_KEYWORD }
    else token
  else token

/-- Translation of `disambiguateTokens` (disambiguateTokens.ts): the five
category-rewriting passes in source order. -/
def disambiguateTokens (tokens : List Token) : List Token :=
  jsMap dataTypeToArrayKeyword
    (jsMap identToArrayIdent
      (jsMap dataTypeToParameterizedDataType
        (jsMap funcNameToIdent
          (jsMap propertyNameKeywordToIdent tokens))))

/-! ### Format options (spec §6; `FormatOptions` consumed by the formatter) -/

inductive KeywordCase where
  | preserve | upper | lower
  deriving DecidableEq

inductive IndentStyle where
  | standard | tabularLeft | tabularRight
  deriving DecidableEq

inductive LogicalOperatorNewline where
  | before | after
  deriving DecidableEq

inductive CommaPosition where
  | after | before | tabular
  deriving DecidableEq

inductive MultilineLists where
  | always | avoid | expressionWidth | num (n : Nat)
  deriving DecidableEq

inductive AliasAs where
  | preserve | always | never
  deriving DecidableEq

/-- The validated options record consumed by the statement formatter
(spec §6).  The `params` table is not modelled: no claim mentions it and the
formatter then falls back to printing the placeholder itself. -/
structure FormatOptions where
  language : String
  tabWidth : Nat
  useTabs : Bool
  keywordCase : KeywordCase
  indentStyle : IndentStyle
  logicalOperatorNewline : LogicalOperatorNewline
  tabulateAlias : Bool
  commaPosition : CommaPosition
  expressionWidth : Nat
  linesBetweenQueries : Nat
  denseOperators : Bool
  newlineBeforeSemicolon : Bool
  multilineLists : MultilineLists
  aliasAs : AliasAs
  newlineBeforeOpenParen : Bool
  newlineBeforeCloseParen : Bool
  deriving DecidableEq

/-! ### String utilities (utils.ts and config.ts are not under src/) -/

def upperStr (s : String) : String := String.mk (s.toList.map Char.toUpper)

def lowerStr (s : String) : String := String.mk (s.toList.map Char.toLower)

def isWhitespaceChar (c : Char) : Bool :=
  c == ' ' || c == '\n' || c == '\t' || c == '\r'

def equalizeWhitespaceGo (prevWs : Bool) : List Char → List Char
  | [] => []
  | c :: rest =>
    if isWhitespaceChar c then
      if prevWs then equalizeWhitespaceGo true rest
      else ' ' :: equalizeWhitespaceGo true rest
    else c :: equalizeWhitespaceGo false rest

/-- Modelled from the spec: utils.ts `equalizeWhitespace` — internal runs of
whitespace are collapsed to single spaces (spec §3: reserved `value`
canonicalization). -/
def equalizeWhitespace (s : String) : String :=
  (equalizeWhitespaceGo false s.toList).asString

def trimSpacesEnd (s : String) : String :=
  ((s.toList.reverse.dropWhile (fun c => c == ' ' || c == '\t')).reverse).asString

def trimWhitespaceEnd (s : String) : String :=
  ((s.toList.reverse.dropWhile isWhitespaceChar).reverse).asString

def trimWhitespaceBoth (s : String) : String :=
  ((((s.toList.dropWhile isWhitespaceChar).reverse).dropWhile isWhitespaceChar).reverse).asString

/-- Case-insensitive substring test, for the formatter's `/JOIN/i` check. -/
def strContainsGo (pat : List Char) : List Char → Bool
  | [] => pat.isEmpty
  | c :: rest => pat.isPrefixOf (c :: rest) || strContainsGo pat rest

def strContainsUpper (s pat : String) : Bool :=
  strContainsGo pat.toList (upperStr s).toList

/-! ### Output string builder

Modelled from the spec (§4.4): StringBuilder.ts is not under src/.  The
builder keeps the query string and maintains the invariant that every
space-producing append leaves exactly one trailing space (or a fresh
newline-plus-indent), so `add_with_spaces` gets its single separating space
from the previous append, the glue helpers trim that pending space, and
`add_newline` appends a newline (collapsing runs) followed by the indent
string current at that moment. -/

/-- Spec §4.4 `add_with_spaces`: separated from the previous text by exactly
one space (left pending by the previous append), leaving one trailing
space. -/
def sbAddWithSpaces (x q : String) : String := q ++ x ++ " "

/-- Spec §4.4 `add_with_space_before`: like `add_with_spaces` but with no
trailing-space handling. -/
def sbAddWithSpaceBefore (x q : String) : String := q ++ x

/-- Spec §4.4 `add_with_space_after`: no preceding space (the pending space
is trimmed), one trailing space. -/
def sbAddWithSpaceAfter (x q : String) : String := trimSpacesEnd q ++ x ++ " "

/-- Spec §4.4 `add_without_spaces`: glue to the previous text. -/
def sbAddWithoutSpaces (x q : String) : String := trimSpacesEnd q ++ x

/-- Spec §4.4 `add_newline`: append a newline followed by the current indent
string, collapsing runs of consecutive newlines (and dropping a newline at
the very start of the output). -/
def sbAddNewline (ind q : String) : String :=
  let t := trimSpacesEnd q
  if t == "" then t
  else if t.toList.getLast? == some '\n' then t ++ ind
  else t ++ "\n" ++ ind

/-- Spec §4.4 `add_without_newlines_before`: strip trailing blank space back
to the previous non-blank position, then append with a preceding space. -/
def sbAddWithoutNewlinesBefore (x q : String) : String :=
  let t := trimWhitespaceEnd q
  if t == "" then x else t ++ " " ++ x

/-! ### Statement formatter state (StatementFormatter fields) -/

/-- The mutable fields of `StatementFormatter`: the output buffer, the two
indentation counters (spec §3 "Indentation state", modelled from the spec:
Indentation.ts is not under src/), the inline-block nesting level, and the
state-machine registers `currentNewline`, `previousReservedToken`,
`previousCommandToken`, plus the statement's token list and cursor. -/
structure FmtState where
  query : String
  indentTopLevel : Nat
  indentBlockLevel : Nat
  inlineLevel : Nat
  currentNewline : Bool
  previousReservedToken : Token
  previousCommandToken : Token
  tokens : List Token
  index : Nat
  deriving DecidableEq

/-- Modelled from the spec: config.ts `isTabularStyle`. -/
def isTabularStyle (cfg : FormatOptions) : Bool :=
  cfg.indentStyle == IndentStyle.tabularLeft || cfg.indentStyle == IndentStyle.tabularRight

/-- Modelled from the spec: config.ts `indentString` — one indentation step
(spec §6 `tabWidth`/`useTabs`; tabular styles use a fixed-width step, spec
§4.8 "commonly 10"). -/
def indentString (cfg : FormatOptions) : String :=
  if isTabularStyle cfg then String.mk (List.replicate 10 ' ')
  else if cfg.useTabs then "\t"
  else String.mk (List.replicate cfg.tabWidth ' ')

/-- Total indent: (`top_level_depth` + `block_level_depth`) copies of the
step (spec §3). -/
def getIndent (cfg : FormatOptions) (st : FmtState) : String :=
  String.join (List.replicate (st.indentTopLevel + st.indentBlockLevel) (indentString cfg))

/-- Modelled from the spec: token.ts `isToken.X` — tests a token by its
canonical value, case-insensitively. -/
def isTok (v : String) (t : Token) : Bool :=
  upperStr t.value == v

/-- Modelled from the spec: token.ts `isCommand` — "next Reserved Command"
(used by `tokensUntilNextCommandOrQueryEnd`). -/
def isCommand (t : Token) : Bool :=
  t.type == TokenType.RESERVED_COMMAND

/-- Translation of `StatementFormatter.tokenLookBehind`:
`this.tokens[this.index - n] || EOF_TOKEN`.  A JavaScript negative index
reads `undefined`, hence the explicit guard. -/
def tokenLookBehindAt (tokens : List Token) (index n : Nat) : Token :=
  if index < n then EOF_TOKEN else tokens.getD (index - n) EOF_TOKEN

/-- Translation of `StatementFormatter.tokenLookAhead`:
`this.tokens[this.index + n] || EOF_TOKEN`. -/
def tokenLookAheadAt (tokens : List Token) (index n : Nat) : Token :=
  tokens.getD (index + n) EOF_TOKEN

def FmtState.tokenLookBehind (st : FmtState) (n : Nat := 1) : Token :=
  tokenLookBehindAt st.tokens st.index n

def FmtState.tokenLookAhead (st : FmtState) (n : Nat := 1) : Token :=
  tokenLookAheadAt st.tokens st.index n

/-- Translation of `StatementFormatter.isWithinSelect`. -/
def isWithinSelect (st : FmtState) : Bool :=
  isTok ("SELECT") st.previousCommandToken

/-- Translation of `StatementFormatter.show` (renamed: `show` is a Lean
keyword): reserved tokens are cased per `keywordCase` with whitespace
equalized; all other tokens print their `value`. -/
def showToken (cfg : FormatOptions) (token : Token) : String :=
  if isReserved token.type then
    match cfg.keywordCase with
    | KeywordCase.preserve => equalizeWhitespace token.text
    | KeywordCase.upper => equalizeWhitespace (upperStr token.text)
    | KeywordCase.lower => equalizeWhitespace (lowerStr token.text)
  else token.value

/-- Translation of `StatementFormatter.tokensUntilNextCommandOrQueryEnd`:
`tail.slice(0, tail.length ? tail.findIndex(...) : undefined)`.  When no
command or `;` follows, `findIndex` returns `-1` and `slice(0, -1)` drops the
final token of the tail. -/
def tokensUntilNextCommandOrQueryEnd (tokens : List Token) (index : Nat) : List Token :=
  let tail := tokens.drop (index + 1)
  if tail.isEmpty then []
  else
    match tail.findIdx? (fun token => isCommand token || token.value == ";") with
    | some j => tail.take j
    | none => tail.take (tail.length - 1)

def countClausesGo (count : Nat) (openBlocks : Int) : List Token → Nat
  | [] => count
  | t :: rest =>
    let count := if t.value == "," && openBlocks == 0 then count + 1 else count
    let openBlocks := if t.type == TokenType.BLOCK_START then openBlocks + 1 else openBlocks
    let openBlocks := if t.type == TokenType.BLOCK_END then openBlocks - 1 else openBlocks
    countClausesGo count openBlocks rest

/-- Translation of `StatementFormatter.countClauses`: top-level comma count
plus one, ignoring commas inside blocks. -/
def countClauses (tokens : List Token) : Nat :=
  countClausesGo 1 0 tokens

/-- Translation of `StatementFormatter.inlineWidth`: the projected single-line
width `whitespaceBefore + value + ' ' + joined-values` with commas given their
trailing space. -/
def inlineWidth (token : Token) (tokens : List Token) : Nat :=
  let tokensString :=
    String.join (tokens.map (fun t => if t.value == "," then t.value ++ " " else t.value))
  (token.whitespaceBefore ++ token.value ++ " " ++ tokensString).length

/-- Translation of `StatementFormatter.checkNewline`: the SELECT-with-CASE
override, then the `multilineLists` policy. -/
def checkNewline (cfg : FormatOptions) (token : Token) (st : FmtState) : Bool :=
  let nextTokens := tokensUntilNextCommandOrQueryEnd st.tokens st.index
  if isWithinSelect st && nextTokens.any (isTok ("CASE")) then true
  else
    match cfg.multilineLists with
    | MultilineLists.always => true
    | MultilineLists.avoid => false
    | MultilineLists.expressionWidth => decide (inlineWidth token nextTokens > cfg.expressionWidth)
    | MultilineLists.num n =>
      decide (countClauses nextTokens > n) || decide (inlineWidth token nextTokens > cfg.expressionWidth)

/-! ### Inline blocks (InlineBlock.ts is not under src/) -/

/-- Token categories that disqualify a parenthesized group from being inline
(spec §4.5). -/
def isForbiddenInInline (t : Token) : Bool :=
  t.type == TokenType.RESERVED_COMMAND || t.type == TokenType.RESERVED_BINARY_COMMAND ||
  t.type == TokenType.BLOCK_COMMENT || t.type == TokenType.RESERVED_CASE_START

def isInlineBlockGo (cap : Nat) : Nat → Nat → List Token → Bool
  | _, _, [] => false
  | width, depth, t :: rest =>
    let width := width + t.value.length + (if t.value == "," then 1 else 0)
    if width > cap then false
    else if t.type == TokenType.BLOCK_START then isInlineBlockGo cap width (depth + 1) rest
    else if t.type == TokenType.BLOCK_END then
      (if depth == 1 then true else isInlineBlockGo cap width (depth - 1) rest)
    else if isForbiddenInInline t then false
    else isInlineBlockGo cap width depth rest

/-- Modelled from the spec: InlineBlock.ts `isInlineBlock` — look ahead from
the `(` at `index` to its matching close; the group is inline iff it contains
none of the forbidden categories and its rendered width (token values, commas
keeping their trailing space) stays within `expressionWidth` (spec §4.5). -/
def isInlineBlock (cap : Nat) (tokens : List Token) (index : Nat) : Bool :=
  isInlineBlockGo cap 0 0 (tokens.drop index)

/-- Modelled from the spec: InlineBlock.ts `beginIfPossible` — entering a `(`
while already inside an inline block deepens it; otherwise an inline block
starts only if the lookahead check passes. -/
def inlineBlockBeginIfPossible (cap : Nat) (tokens : List Token) (index : Nat)
    (level : Nat) : Nat :=
  if level > 0 then level + 1
  else if isInlineBlock cap tokens index then 1
  else 0

/-! ### Alias engine and AS-token factory (AliasAs.ts, AsTokenFactory.ts are
not under src/) -/

/-- Modelled from the spec: AsTokenFactory — a synthesized `AS` keyword
token.  (The factory's majority-casing of `AS` is irrelevant here: `showToken`
re-cases it per `keywordCase`.) -/
def asTokenFactoryToken : Token :=
  { type := TokenType.RESERVED_KEYWORD, raw := "AS", text := "AS", value := "AS",
    whitespaceBefore := " " }

/-- Modelled from the spec (§4.6): AliasAs `shouldAddBefore` — under
`aliasAs = always`, an `AS` is synthesized before an identifier that follows
the last item of a SELECT-list element (identifier, `)`, number, string or
`*`) when the upcoming token is not `AS`, a comma, an operator or a reserved
command. -/
def aliasShouldAddBefore (cfg : FormatOptions) (st : FmtState) (token : Token) : Bool :=
  let prev := st.tokenLookBehind 1
  let next := st.tokenLookAhead 1
  cfg.aliasAs == AliasAs.always &&
  (token.type == TokenType.IDENTIFIER || token.type == TokenType.QUOTED_IDENTIFIER ||
    token.type == TokenType.ARRAY_IDENTIFIER) &&
  (prev.type == TokenType.IDENTIFIER || prev.type == TokenType.QUOTED_IDENTIFIER ||
    prev.type == TokenType.NUMBER || prev.type == TokenType.STRING ||
    prev.value == ")" || prev.value == "*") &&
  (!(isTok ("AS") next) && !(next.value == ",") && !(next.type == TokenType.OPERATOR) &&
    !(next.type == TokenType.RESERVED_COMMAND))

/-- Modelled from the spec (§4.6): AliasAs `shouldAddAfter` — the spec
describes this only as "the mirror case"; no claim depends on it and the
options exercised here (`aliasAs = preserve`) disable the alias engine, so it
is modelled as never firing. -/
def aliasShouldAddAfter (_cfg : FormatOptions) (_st : FmtState) (_token : Token) : Bool :=
  false

/-- Modelled from the spec (§4.6): AliasAs `shouldRemove` — skip `AS` wholly
when `aliasAs = never`. -/
def aliasShouldRemove (cfg : FormatOptions) : Bool :=
  cfg.aliasAs == AliasAs.never

/-- Modelled from the spec: Params.get — no params table is supplied, so a
placeholder prints itself (spec §4.9: the formatter fails only when params
WERE supplied but one is missing). -/
def paramsGet (token : Token) : String :=
  token.value

/-! ### Tabular post-processing (tabularStyle.ts is not under src/) -/

def tabMarker : String := "\x01"

/-- Modelled from the spec (§4.8): wrap commands/binary commands/dependent
clauses/logical operators in placeholder markers for the final padding
sweep; identity in `standard` style. -/
def toTabularToken (cfg : FormatOptions) (t : Token) : Token :=
  if isTabularStyle cfg then
    { t with text := tabMarker ++ t.text ++ tabMarker,
             value := tabMarker ++ t.value ++ tabMarker }
  else t

def padTabularWord (cfg : FormatOptions) (w : List Char) : List Char :=
  if cfg.indentStyle == IndentStyle.tabularRight then
    List.replicate (10 - w.length) ' ' ++ w
  else w ++ List.replicate (10 - w.length) ' '

def replaceTabularGo (cfg : FormatOptions) : Bool → List Char → List Char → List Char
  | inWord, acc, [] => if inWord then padTabularWord cfg acc.reverse else []
  | inWord, acc, c :: rest =>
    if c == '\x01' then
      if inWord then padTabularWord cfg acc.reverse ++ replaceTabularGo cfg false [] rest
      else replaceTabularGo cfg true [] rest
    else if inWord then replaceTabularGo cfg true (c :: acc) rest
    else c :: replaceTabularGo cfg false acc rest

/-- Modelled from the spec (§4.8): the final sweep pads each marker-wrapped
word to the fixed column width (10) and removes the markers. -/
def replaceTabularPlaceholders (cfg : FormatOptions) (s : String) : String :=
  if isTabularStyle cfg then (replaceTabularGo cfg false [] s.toList).asString else s

/-! ### Formatter methods (StatementFormatter, translated per method) -/

/-- Translation of `StatementFormatter.formatWord`: alias engine consults,
then the word with surrounding spaces. -/
def formatWord (cfg : FormatOptions) (token : Token) (st : FmtState) : FmtState :=
  let q := st.query
  let q := if aliasShouldAddBefore cfg st token then
      sbAddWithSpaces (showToken cfg asTokenFactoryToken) q
    else q
  let q := sbAddWithSpaces (showToken cfg token) q
  let q := if aliasShouldAddAfter cfg st token then
      sbAddWithSpaces (showToken cfg asTokenFactoryToken) q
    else q
  { st with query := q }

/-- Translation of `StatementFormatter.formatLineComment`. -/
def formatLineComment (cfg : FormatOptions) (token : Token) (st : FmtState) : FmtState :=
  let q := sbAddWithSpaceBefore (showToken cfg token) st.query
  { st with query := sbAddNewline (getIndent cfg st) q }

def indentCommentGo (ind : List Char) : Bool → List Char → List Char
  | skipping, [] => if skipping then [] else []
  | skipping, c :: rest =>
    if skipping && (c == ' ' || c == '\t') then indentCommentGo ind true rest
    else if c == '\n' then '\n' :: (ind ++ (' ' :: indentCommentGo ind true rest))
    else c :: indentCommentGo ind false rest

/-- Translation of `StatementFormatter.indentComment`:
`comment.replace(/\n[ \t]*%/gu, '\n' + indent + ' ')`. -/
def indentComment (cfg : FormatOptions) (st : FmtState) (comment : String) : String :=
  (indentCommentGo (getIndent cfg st).toList false comment.toList).asString

/-- Translation of `StatementFormatter.formatBlockComment`. -/
def formatBlockComment (cfg : FormatOptions) (token : Token) (st : FmtState) : FmtState :=
  let q := sbAddNewline (getIndent cfg st) st.query
  let q := sbAddWithSpaceBefore (indentComment cfg st token.value) q
  { st with query := sbAddNewline (getIndent cfg st) q }

/-- Translation of `StatementFormatter.formatCommand`: decrease then (unless
tabular before a `(`) increase the top level, newline, the token, then a
trailing newline (multi-line mode) or space. -/
def formatCommand (cfg : FormatOptions) (token : Token) (st : FmtState) : FmtState :=
  let st := { st with indentTopLevel := st.indentTopLevel - 1 }
  let st := { st with query := sbAddNewline (getIndent cfg st) st.query }
  let st :=
    if isTabularStyle cfg then
      if !((st.tokenLookAhead 1).value == "(") then
        { st with indentTopLevel := st.indentTopLevel + 1 }
      else st
    else { st with indentTopLevel := st.indentTopLevel + 1 }
  let st := { st with query := sbAddWithSpaceBefore (showToken cfg token) st.query }
  if st.currentNewline && !isTabularStyle cfg then
    { st with query := sbAddNewline (getIndent cfg st) st.query }
  else
    { st with query := sbAddWithSpaceBefore (" ") st.query }

/-- Translation of `StatementFormatter.formatBinaryCommand`. -/
def formatBinaryCommand (cfg : FormatOptions) (token : Token) (st : FmtState) : FmtState :=
  let isJoin := strContainsUpper token.value ("JOIN")
  let st := if !isJoin || isTabularStyle cfg then
      { st with indentTopLevel := st.indentTopLevel - 1 }
    else st
  let st := { st with query := sbAddNewline (getIndent cfg st) st.query }
  let st := { st with query := sbAddWithSpaceBefore (showToken cfg token) st.query }
  if isJoin then { st with query := sbAddWithSpaceBefore (" ") st.query }
  else { st with query := sbAddNewline (getIndent cfg st) st.query }

/-- Translation of `StatementFormatter.formatKeyword`: `AS` is skipped when
the alias engine removes it. -/
def formatKeyword (cfg : FormatOptions) (token : Token) (st : FmtState) : FmtState :=
  if isTok ("AS") token && aliasShouldRemove cfg then st
  else { st with query := sbAddWithSpaces (showToken cfg token) st.query }

/-- Translation of `StatementFormatter.formatDependentClause`. -/
def formatDependentClause (cfg : FormatOptions) (token : Token) (st : FmtState) : FmtState :=
  let q := sbAddNewline (getIndent cfg st) st.query
  { st with query := sbAddWithSpaces (showToken cfg token) q }

/-- Translation of `StatementFormatter.formatJoinCondition`. -/
def formatJoinCondition (cfg : FormatOptions) (token : Token) (st : FmtState) : FmtState :=
  { st with query := sbAddWithSpaces (showToken cfg token) st.query }

/-- Translation of `StatementFormatter.formatLogicalOperator`: `AND` directly
after a two-behind `BETWEEN` is printed inline; otherwise the newline goes
before or after the operator per `logicalOperatorNewline`, only in multi-line
mode. -/
def formatLogicalOperator (cfg : FormatOptions) (token : Token) (st : FmtState) : FmtState :=
  if isTok ("AND") token && isTok ("BETWEEN") (st.tokenLookBehind 2) then
    { st with query := sbAddWithSpaces (showToken cfg token) st.query }
  else
    let st := if isTabularStyle cfg then
        { st with indentTopLevel := st.indentTopLevel - 1 }
      else st
    if cfg.logicalOperatorNewline == LogicalOperatorNewline.before then
      let q := if st.currentNewline then sbAddNewline (getIndent cfg st) st.query else st.query
      { st with query := sbAddWithSpaces (showToken cfg token) q }
    else
      let q := sbAddWithSpaceBefore (showToken cfg token) st.query
      let q := if st.currentNewline then sbAddNewline (getIndent cfg st) q else q
      { st with query := q }

/-- Translation of `StatementFormatter.formatComma`: the comma glues to the
left with a trailing space; a newline follows unless an inline block is
active, the latest reserved token is `LIMIT`, or single-line mode is on. -/
def formatComma (cfg : FormatOptions) (token : Token) (st : FmtState) : FmtState :=
  let q := sbAddWithSpaceAfter (showToken cfg token) st.query
  if st.inlineLevel > 0 then { st with query := q }
  else if isTok ("LIMIT") st.previousReservedToken then { st with query := q }
  else if st.currentNewline then { st with query := sbAddNewline (getIndent cfg st) q }
  else { st with query := q }

/-- Translation of `StatementFormatter.formatQuerySeparator`. -/
def formatQuerySeparator (cfg : FormatOptions) (token : Token) (st : FmtState) : FmtState :=
  let st := if cfg.newlineBeforeSemicolon then
      { st with query := sbAddNewline (getIndent cfg st) st.query }
    else st
  { st with query := sbAddWithoutSpaces (showToken cfg token) st.query }

/-- Translation of `StatementFormatter.formatOperator`: comma and semicolon
dispatch to their own handlers; per-character glue rules; then the
`denseOperators` rule. -/
def formatOperator (cfg : FormatOptions) (token : Token) (st : FmtState) : FmtState :=
  if token.value == "," then formatComma cfg token st
  else if token.value == ";" then formatQuerySeparator cfg token st
  else if token.value == "$" || token.value == "[" then
    { st with query := sbAddWithSpaceBefore (showToken cfg token) st.query }
  else if token.value == ":" || token.value == "]" then
    { st with query := sbAddWithSpaceAfter (showToken cfg token) st.query }
  else if token.value == "." || token.value == "\x7b" || token.value == "\x7d" ||
      token.value == "`" then
    { st with query := sbAddWithoutSpaces (showToken cfg token) st.query }
  else if cfg.denseOperators && !((st.tokenLookBehind 1).type == TokenType.RESERVED_COMMAND) then
    { st with query := sbAddWithoutSpaces (showToken cfg token) st.query }
  else { st with query := sbAddWithSpaces (showToken cfg token) st.query }

/-- Translation of `StatementFormatter.formatBlockStart`. -/
def formatBlockStart (cfg : FormatOptions) (token : Token) (st : FmtState) : FmtState :=
  let behindType := (st.tokenLookBehind 1).type
  let preserveWs := behindType == TokenType.BLOCK_START ||
    behindType == TokenType.LINE_COMMENT || behindType == TokenType.OPERATOR
  let st :=
    if token.whitespaceBefore.length == 0 && !preserveWs then
      { st with query := sbAddWithoutSpaces (showToken cfg token) st.query }
    else if !cfg.newlineBeforeOpenParen then
      { st with query := sbAddWithoutNewlinesBefore (showToken cfg token) st.query }
    else
      { st with query := sbAddWithSpaceBefore (showToken cfg token) st.query }
  let st := { st with
    inlineLevel := inlineBlockBeginIfPossible cfg.expressionWidth st.tokens st.index st.inlineLevel }
  if st.inlineLevel == 0 then
    let st := { st with indentBlockLevel := st.indentBlockLevel + 1 }
    { st with query := sbAddNewline (getIndent cfg st) st.query }
  else st

/-- Translation of `StatementFormatter.formatMultilineBlockEnd`. -/
def formatMultilineBlockEnd (cfg : FormatOptions) (token : Token) (st : FmtState) : FmtState :=
  let st := { st with indentBlockLevel := st.indentBlockLevel - 1 }
  let st :=
    if isTabularStyle cfg then
      let st := { st with query := sbAddNewline (getIndent cfg st) st.query }
      { st with query := sbAddWithSpaceBefore (indentString cfg) st.query }
    else if cfg.newlineBeforeCloseParen then
      { st with query := sbAddNewline (getIndent cfg st) st.query }
    else
      { st with query := sbAddWithoutNewlinesBefore ("") st.query }
  { st with query := sbAddWithSpaces (showToken cfg token) st.query }

/-- Translation of `StatementFormatter.formatBlockEnd`. -/
def formatBlockEnd (cfg : FormatOptions) (token : Token) (st : FmtState) : FmtState :=
  if st.inlineLevel > 0 then
    { st with inlineLevel := st.inlineLevel - 1,
              query := sbAddWithSpaceAfter (showToken cfg token) st.query }
  else formatMultilineBlockEnd cfg token st

/-- Translation of `StatementFormatter.formatCaseStart`. -/
def formatCaseStart (cfg : FormatOptions) (token : Token) (st : FmtState) : FmtState :=
  let st := { st with query := sbAddWithSpaces (showToken cfg token) st.query }
  let st := { st with indentBlockLevel := st.indentBlockLevel + 1 }
  if cfg.multilineLists == MultilineLists.always then
    { st with query := sbAddNewline (getIndent cfg st) st.query }
  else st

/-- Translation of `StatementFormatter.formatCaseEnd`. -/
def formatCaseEnd (cfg : FormatOptions) (token : Token) (st : FmtState) : FmtState :=
  formatMultilineBlockEnd cfg token st

/-- Translation of `StatementFormatter.formatPlaceholder`. -/
def formatPlaceholder (_cfg : FormatOptions) (token : Token) (st : FmtState) : FmtState :=
  { st with query := sbAddWithSpaces (paramsGet token) st.query }

/-- Translation of the per-token dispatch in `StatementFormatter.format`.
In the formatter's version of the token model the `.` operator is an
`OPERATOR` token handled by `formatOperator`'s glue rule; the merged model
keeps the disambiguator's `PROPERTY_ACCESS_OPERATOR` category, so it is
routed to `formatOperator` as well. -/
def dispatchToken (cfg : FormatOptions) (token : Token) (st : FmtState) : FmtState :=
  if token.type == TokenType.LINE_COMMENT then formatLineComment cfg token st
  else if token.type == TokenType.BLOCK_COMMENT then formatBlockComment cfg token st
  else if token.type == TokenType.RESERVED_COMMAND then
    formatCommand cfg token { st with currentNewline := checkNewline cfg token st }
  else if token.type == TokenType.RESERVED_BINARY_COMMAND then formatBinaryCommand cfg token st
  else if token.type == TokenType.RESERVED_DEPENDENT_CLAUSE then
    formatDependentClause cfg token st
  else if token.type == TokenType.RESERVED_JOIN_CONDITION then formatJoinCondition cfg token st
  else if token.type == TokenType.RESERVED_LOGICAL_OPERATOR then
    formatLogicalOperator cfg token st
  else if token.type == TokenType.RESERVED_KEYWORD then formatKeyword cfg token st
  else if token.type == TokenType.BLOCK_START then formatBlockStart cfg token st
  else if token.type == TokenType.BLOCK_END then formatBlockEnd cfg token st
  else if token.type == TokenType.RESERVED_CASE_START then formatCaseStart cfg token st
  else if token.type == TokenType.RESERVED_CASE_END then formatCaseEnd cfg token st
  else if token.type == TokenType.PLACEHOLDER then formatPlaceholder cfg token st
  else if token.type == TokenType.OPERATOR ||
      token.type == TokenType.PROPERTY_ACCESS_OPERATOR then formatOperator cfg token st
  else formatWord cfg token st

/-- Translation of one iteration of the loop in `StatementFormatter.format`:
record the reserved token, apply the tabular transform to
commands/clauses/logical operators, record the command token, dispatch. -/
def formatStep (cfg : FormatOptions) (stIn : FmtState) : FmtState :=
  let token0 := stIn.tokens.getD stIn.index EOF_TOKEN
  if isReserved token0.type then
    let st := { stIn with previousReservedToken := token0 }
    let token :=
      if token0.type == TokenType.RESERVED_LOGICAL_OPERATOR ||
          token0.type == TokenType.RESERVED_DEPENDENT_CLAUSE ||
          token0.type == TokenType.RESERVED_COMMAND ||
          token0.type == TokenType.RESERVED_BINARY_COMMAND then
        toTabularToken cfg token0
      else token0
    let st := if token.type == TokenType.RESERVED_COMMAND then
        { st with previousCommandToken := token }
      else st
    dispatchToken cfg token st
  else dispatchToken cfg token0 stIn

/-- The initial `StatementFormatter` state for one statement. -/
def initialFmtState (tokens : List Token) : FmtState :=
  { query := "", indentTopLevel := 0, indentBlockLevel := 0, inlineLevel := 0,
    currentNewline := true, previousReservedToken := EOF_TOKEN,
    previousCommandToken := EOF_TOKEN, tokens := tokens, index := 0 }

/-- Translation of `StatementFormatter.format`: iterate the statement's
tokens and post-process tabular placeholders. -/
def runFormat (cfg : FormatOptions) (tokens : List Token) : String :=
  let final := (List.range tokens.length).foldl
    (fun st i => formatStep cfg { st with index := i }) (initialFmtState tokens)
  replaceTabularPlaceholders cfg final.query

/-! ### Lexer (spec §4.1; the lexer sources are not under src/) -/

/-- Modelled from the spec (§3 "Dialect definition"): the keyword sets (plus
CASE/END markers, which the token model carries as `RESERVED_CASE_START` and
`RESERVED_CASE_END`), operator strings, comment prefixes and placeholder
prefixes. -/
structure Dialect where
  commands : List String
  binaryCommands : List String
  dependentClauses : List String
  joinConditions : List String
  logicalOperators : List String
  caseStartWords : List String
  caseEndWords : List String
  reservedKeywords : List String
  functionNames : List String
  dataTypes : List String
  operators : List String
  lineCommentPrefixes : List String
  placeholderPrefixes : List Char

def isWordStartChar (c : Char) : Bool :=
  ('a' ≤ c && c ≤ 'z') || ('A' ≤ c && c ≤ 'Z') || c == '_'

def isDigitChar (c : Char) : Bool :=
  '0' ≤ c && c ≤ '9'

def isWordChar (c : Char) : Bool :=
  isWordStartChar c || isDigitChar c || c == '$'

/-- Number of words in a multi-word keyword entry. -/
def phraseWordCount (s : String) : Nat :=
  (s.toList.filter (fun c => c == ' ')).length + 1

/-- The longest keyword phrase (in words) in the dialect's tables. -/
def maxPhraseWords (d : Dialect) : Nat :=
  (d.commands ++ d.binaryCommands ++ d.dependentClauses ++ d.joinConditions ++
    d.logicalOperators ++ d.caseStartWords ++ d.caseEndWords ++ d.reservedKeywords ++
    d.functionNames ++ d.dataTypes).foldl (fun m s => max m (phraseWordCount s)) 1

/-- Candidate keyword phrases starting at the current position: for each word
count up to the fuel, the consumed source slice (words with their internal
whitespace).  Shorter candidates come first. -/
def phraseCandidatesGo : Nat → List Char → List (List Char)
  | 0, _ => []
  | fuel + 1, cs =>
    let w := cs.takeWhile isWordChar
    if w.isEmpty then []
    else
      let rest := cs.drop w.length
      let ws := rest.takeWhile isWhitespaceChar
      let rest2 := rest.drop ws.length
      w :: (if ws.isEmpty then []
            else (phraseCandidatesGo fuel rest2).map (fun tail => w ++ ws ++ tail))

/-- Spec §4.1 rule 5's category priority for a normalized keyword phrase. -/
def keywordCategory (d : Dialect) (phrase : String) : Option TokenType :=
  if d.commands.contains phrase then some TokenType.RESERVED_COMMAND
  else if d.binaryCommands.contains phrase then some TokenType.RESERVED_BINARY_COMMAND
  else if d.dependentClauses.contains phrase then some TokenType.RESERVED_DEPENDENT_CLAUSE
  else if d.joinConditions.contains phrase then some TokenType.RESERVED_JOIN_CONDITION
  else if d.logicalOperators.contains phrase then some TokenType.RESERVED_LOGICAL_OPERATOR
  else if d.caseStartWords.contains phrase then some TokenType.RESERVED_CASE_START
  else if d.caseEndWords.contains phrase then some TokenType.RESERVED_CASE_END
  else if d.reservedKeywords.contains phrase then some TokenType.RESERVED_KEYWORD
  else if d.functionNames.contains phrase then some TokenType.RESERVED_FUNCTION_NAME
  else if d.dataTypes.contains phrase then some TokenType.RESERVED_DATA_TYPE
  else none

/-- Longest candidate keyword match (spec §4.1: "Longest multi-word match
wins; ties resolved by the listed priority"). -/
def bestKeywordMatchGo (d : Dialect) : List (List Char) → Option (List Char × TokenType)
  | [] => none
  | consumed :: rest =>
    match bestKeywordMatchGo d rest with
    | some r => some r
    | none =>
      match keywordCategory d (upperStr (equalizeWhitespace (String.mk consumed))) with
      | some tt => some (consumed, tt)
      | none => none

def stripOuterQuotes (text : String) : String :=
  String.mk ((text.toList.drop 1).dropLast)

/-- Canonical `value` of a token (spec §3): reserved text is
whitespace-collapsed; quoted identifiers lose their quote wrappers; for all
other tokens `value = text`. -/
def canonicalValue (tt : TokenType) (text : String) : String :=
  if isReserved tt then equalizeWhitespace text
  else if tt == TokenType.QUOTED_IDENTIFIER then stripOuterQuotes text
  else text

def mkLexToken (tt : TokenType) (consumed : List Char) : Token :=
  let text := String.mk consumed
  { type := tt, raw := text, text := text, value := canonicalValue tt text,
    whitespaceBefore := "" }

/-- Quoted region after the opening quote, handling doubled-quote escapes:
returns the consumed characters (content plus closing quote) and the rest. -/
def lexQuotedGo (quote : Char) : List Char → (List Char × List Char)
  | [] => ([], [])
  | c :: rest =>
    if c == quote then
      match rest with
      | d :: rest2 =>
        if d == quote then
          let (a, r) := lexQuotedGo quote rest2
          (c :: d :: a, r)
        else ([c], rest)
      | [] => ([c], [])
    else
      let (a, r) := lexQuotedGo quote rest
      (c :: a, r)

/-- Body of a `/* ... */` comment after the opening `/*` (non-nested). -/
def lexBlockCommentGo : List Char → (List Char × List Char)
  | [] => ([], [])
  | '*' :: '/' :: rest => (['*', '/'], rest)
  | c :: rest =>
    let (a, r) := lexBlockCommentGo rest
    (c :: a, r)

/-- Optional exponent part of a numeric literal. -/
def lexExponent : List Char → (List Char × List Char)
  | c :: s :: more =>
    if (c == 'e' || c == 'E') && (s == '+' || s == '-') then
      let digits := more.takeWhile isDigitChar
      if digits.isEmpty then ([], c :: s :: more)
      else (c :: s :: digits, more.drop digits.length)
    else if (c == 'e' || c == 'E') && isDigitChar s then
      let digits := (s :: more).takeWhile isDigitChar
      (c :: digits, (s :: more).drop digits.length)
    else ([], c :: s :: more)
  | cs => ([], cs)

/-- Numeric literal: integer, optional decimal part, optional exponent
(spec §4.1 rule 7; the leading sign is left to the operator rule). -/
def lexNumber (cs : List Char) : (List Char × List Char) :=
  let intPart := cs.takeWhile isDigitChar
  let rest := cs.drop intPart.length
  let (fracPart, rest) :=
    match rest with
    | '.' :: more =>
      let f := more.takeWhile isDigitChar
      ('.' :: f, more.drop f.length)
    | _ => ([], rest)
  let (expPart, rest) := lexExponent rest
  (intPart ++ fracPart ++ expPart, rest)

/-- Longest operator-string match at the current position. -/
def matchOperator (ops : List String) (cs : List Char) : Option (List Char) :=
  ops.foldl
    (fun best op =>
      let oc := op.toList
      if oc.isPrefixOf cs then
        match best with
        | some b => if oc.length > b.length then some oc else best
        | none => some oc
      else best)
    none

/-- Matching line-comment prefix, if any. -/
def matchLineComment (d : Dialect) (cs : List Char) : Bool :=
  d.lineCommentPrefixes.any (fun p => p.toList.isPrefixOf cs)

/-- Modelled from the spec (§4.1): one token starting at non-whitespace
character `c`; rules tried in declared order, falling back to a
single-character operator.  Always consumes at least one character. -/
def nextRawToken (d : Dialect) (c : Char) (rest : List Char) : (Token × List Char) :=
  let cs := c :: rest
  if matchLineComment d cs then
    let consumed := cs.takeWhile (fun ch => !(ch == '\n'))
    (mkLexToken TokenType.LINE_COMMENT consumed, cs.drop consumed.length)
  else if c == '/' && rest.head? == some '*' then
    let (body, r) := lexBlockCommentGo (rest.drop 1)
    (mkLexToken TokenType.BLOCK_COMMENT ('/' :: '*' :: body), r)
  else if c == '\'' then
    let (body, r) := lexQuotedGo '\'' rest
    (mkLexToken TokenType.STRING (c :: body), r)
  else if c == '"' then
    let (body, r) := lexQuotedGo '"' rest
    (mkLexToken TokenType.QUOTED_IDENTIFIER (c :: body), r)
  else if isWordStartChar c then
    match bestKeywordMatchGo d (phraseCandidatesGo (maxPhraseWords d) cs) with
    | some (consumed, tt) => (mkLexToken tt consumed, cs.drop consumed.length)
    | none =>
      let w := cs.takeWhile isWordChar
      (mkLexToken TokenType.IDENTIFIER w, cs.drop w.length)
  else if isDigitChar c then
    let (consumed, r) := lexNumber cs
    (mkLexToken TokenType.NUMBER consumed, r)
  else if d.placeholderPrefixes.contains c && !(rest.takeWhile isWordChar).isEmpty then
    let w := rest.takeWhile isWordChar
    (mkLexToken TokenType.PLACEHOLDER (c :: w), rest.drop w.length)
  else if c == '(' || c == '[' || c == '\x7b' then
    (mkLexToken TokenType.OPEN_PAREN [c], rest)
  else if c == ')' || c == ']' || c == '\x7d' then
    (mkLexToken TokenType.CLOSE_PAREN [c], rest)
  else if c == '.' then
    (mkLexToken TokenType.PROPERTY_ACCESS_OPERATOR [c], rest)
  else
    match matchOperator d.operators cs with
    | some oc => (mkLexToken TokenType.OPERATOR oc, cs.drop oc.length)
    | none => (mkLexToken TokenType.OPERATOR [c], rest)

def lexGo (d : Dialect) : Nat → List Char → List Token → List Token
  | 0, _, acc => acc.reverse
  | fuel + 1, cs, acc =>
    let ws := cs.takeWhile isWhitespaceChar
    let wsStr := String.mk ws
    match cs.drop ws.length with
    | [] => ({ EOF_TOKEN with whitespaceBefore := wsStr } :: acc).reverse
    | c :: rest =>
      let (tok, rest2) := nextRawToken d c rest
      lexGo d fuel rest2 ({ tok with whitespaceBefore := wsStr } :: acc)

/-- Modelled from the spec (§4.1): the lexer — skip whitespace (remembered as
the next token's `whitespaceBefore`), emit tokens greedily, end with `EOF`. -/
def lex (d : Dialect) (source : String) : List Token :=
  lexGo d (source.toList.length + 1) source.toList []

/-- Modelled from the spec: a standard-SQL dialect table (the per-dialect
keyword-list files are external collaborators, spec §1). -/
def standardDialect : Dialect :=
  { commands := ["SELECT", "FROM", "WHERE", "GROUP BY", "ORDER BY", "HAVING", "LIMIT",
      "OFFSET", "INSERT INTO", "VALUES", "UPDATE", "SET", "DELETE FROM", "WITH"],
    binaryCommands := ["UNION", "UNION ALL", "INTERSECT", "EXCEPT", "JOIN", "INNER JOIN",
      "LEFT JOIN", "LEFT OUTER JOIN", "RIGHT JOIN", "RIGHT OUTER JOIN", "FULL JOIN",
      "CROSS JOIN"],
    dependentClauses := ["WHEN", "ELSE", "THEN"],
    joinConditions := ["ON", "USING"],
    logicalOperators := ["AND", "OR"],
    caseStartWords := ["CASE"],
    caseEndWords := ["END"],
    reservedKeywords := ["AS", "ASC", "DESC", "DISTINCT", "ALL", "BETWEEN", "IN", "IS",
      "NULL", "NOT", "LIKE", "EXISTS"],
    functionNames := ["COUNT", "SUM", "AVG", "MIN", "MAX"],
    dataTypes := ["INT", "VARCHAR", "CHAR", "DECIMAL", "NUMERIC"],
    operators := ["<>", "<=", ">=", "!=", "::"],
    lineCommentPrefixes := ["--"],
    placeholderPrefixes := [] }

/-- Modelled from the spec: the dialect tables selected by a language tag.
The per-dialect keyword files are out of scope (§1), so every tag maps to the
standard table. -/
def dialectFor (_lang : String) : Dialect :=
  standardDialect

/-! ### Statement segmenter and formatter glue (spec §4.3; Parser.ts and the
Formatter base class are not under src/) -/

def segmentGo (current : List Token) : List Token → List (List Token)
  | [] => if current.isEmpty then [] else [current.reverse]
  | t :: rest =>
    if t.value == ";" && t.type == TokenType.OPERATOR then
      ((t :: current).reverse) :: segmentGo [] rest
    else segmentGo (t :: current) rest

/-- Modelled from the spec (§4.3): cut before each `;` (inclusive); the
trailing span after the last `;`, if non-empty, is its own statement. -/
def splitStatements (tokens : List Token) : List (List Token) :=
  segmentGo [] tokens

/-- Modelled from the spec (§2, §4.3): the formatting pipeline — lex,
disambiguate, segment (the EOF sentinel is not part of any statement), format
each statement, join by `linesBetweenQueries` newlines. -/
def formatQueryString (cfg : FormatOptions) (query : String) : String :=
  let tokens := disambiguateTokens (lex (dialectFor cfg.language) query)
  let stmts := splitStatements (tokens.filter (fun t => !(t.type == TokenType.EOF)))
  let sep := String.join (List.replicate cfg.linesBetweenQueries "\n")
  String.intercalate sep (stmts.map (fun s => trimWhitespaceBoth (runFormat cfg s)))

/-! ### Public entry point (src/unnamed/part_000) -/

/-- Error taxonomy (spec §7). -/
inductive FormatError where
  | config (msg : String)
  | input (msg : String)
  deriving DecidableEq

/-- A caller-supplied partial options record (`Partial<FormatOptions>`). -/
structure PartialFormatOptions where
  language : Option String := none
  tabWidth : Option Nat := none
  useTabs : Option Bool := none
  keywordCase : Option KeywordCase := none
  indentStyle : Option IndentStyle := none
  logicalOperatorNewline : Option LogicalOperatorNewline := none
  tabulateAlias : Option Bool := none
  commaPosition : Option CommaPosition := none
  expressionWidth : Option Nat := none
  linesBetweenQueries : Option Nat := none
  denseOperators : Option Bool := none
  newlineBeforeSemicolon : Option Bool := none
  multilineLists : Option MultilineLists := none
  aliasAs : Option AliasAs := none
  newlineBeforeOpenParen : Option Bool := none
  newlineBeforeCloseParen : Option Bool := none

/-- Translation of `formatters` (part_000): the dialect-tag-to-formatter
table, with `tsql` an alias for `transactsql`; the second component names the
formatter class each tag selects. -/
def formatters : List (String × String) :=
  [("bigquery", "bigquery"), ("db2", "db2"), ("hive", "hive"), ("mariadb", "mariadb"),
   ("mysql", "mysql"), ("n1ql", "n1ql"), ("plsql", "plsql"), ("postgresql", "postgresql"),
   ("redshift", "redshift"), ("singlestoredb", "singlestoredb"), ("snowflake", "snowflake"),
   ("spark", "spark"), ("sql", "sql"), ("sqlite", "sqlite"), ("transactsql", "transactsql"),
   ("trino", "trino"), ("tsql", "transactsql")]

/-- Translation of `supportedDialects = Object.keys(formatters)` (part_000). -/
def supportedDialects : List String :=
  formatters.map Prod.fst

/-- Translation of `defaultOptions` (part_000).  The four fields missing from
the part_000 record (`multilineLists`, `aliasAs`, `newlineBeforeOpenParen`,
`newlineBeforeCloseParen`) are modelled from the spec with their documented
defaults. -/
def defaultOptions : FormatOptions :=
  { language := "sql", tabWidth := 2, useTabs := false, keywordCase := KeywordCase.preserve,
    indentStyle := IndentStyle.standard,
    logicalOperatorNewline := LogicalOperatorNewline.before, tabulateAlias := false,
    commaPosition := CommaPosition.after, expressionWidth := 50, linesBetweenQueries := 1,
    denseOperators := false, newlineBeforeSemicolon := false,
    multilineLists := MultilineLists.always, aliasAs := AliasAs.preserve,
    newlineBeforeOpenParen := false, newlineBeforeCloseParen := false }

/-- The `{...defaultOptions, ...cfg}` merge in `format` (part_000). -/
def mergeOptions (cfg : PartialFormatOptions) : FormatOptions :=
  { language := cfg.language.getD defaultOptions.language,
    tabWidth := cfg.tabWidth.getD defaultOptions.tabWidth,
    useTabs := cfg.useTabs.getD defaultOptions.useTabs,
    keywordCase := cfg.keywordCase.getD defaultOptions.keywordCase,
    indentStyle := cfg.indentStyle.getD defaultOptions.indentStyle,
    logicalOperatorNewline :=
      cfg.logicalOperatorNewline.getD defaultOptions.logicalOperatorNewline,
    tabulateAlias := cfg.tabulateAlias.getD defaultOptions.tabulateAlias,
    commaPosition := cfg.commaPosition.getD defaultOptions.commaPosition,
    expressionWidth := cfg.expressionWidth.getD defaultOptions.expressionWidth,
    linesBetweenQueries := cfg.linesBetweenQueries.getD defaultOptions.linesBetweenQueries,
    denseOperators := cfg.denseOperators.getD defaultOptions.denseOperators,
    newlineBeforeSemicolon :=
      cfg.newlineBeforeSemicolon.getD defaultOptions.newlineBeforeSemicolon,
    multilineLists := cfg.multilineLists.getD defaultOptions.multilineLists,
    aliasAs := cfg.aliasAs.getD defaultOptions.aliasAs,
    newlineBeforeOpenParen :=
      cfg.newlineBeforeOpenParen.getD defaultOptions.newlineBeforeOpenParen,
    newlineBeforeCloseParen :=
      cfg.newlineBeforeCloseParen.getD defaultOptions.newlineBeforeCloseParen }

/-- Modelled from the spec (§7): validateConfigs.ts `validateQuery` throws
`InputError` only when `query` is not a string; here `query` is always a
string, so the check passes. -/
def validateQuery (_query : String) : Except FormatError Unit :=
  Except.ok ()

/-- Modelled from the spec (§6, §7): validateConfigs.ts `validateConfig`
rejects unknown options, wrong types and negative numerics; a well-typed
record with `Nat` numerics satisfies all of these, so validation succeeds. -/
def validateConfig (options : FormatOptions) : Except FormatError FormatOptions :=
  Except.ok options

/-- Translation of the unknown-dialect check in `format` (part_000):
`typeof cfg.language === 'string' && !supportedDialects.includes(cfg.language)`
throws a `ConfigError`. -/
def dialectCheck (cfg : PartialFormatOptions) : Except FormatError Unit :=
  match cfg.language with
  | some lang =>
    if supportedDialects.contains lang then Except.ok ()
    else Except.error (FormatError.config ("Unsupported SQL dialect: " ++ lang))
  | none => Except.ok ()

/-- Translation of `format` (part_000): validate the query, reject unknown
dialect tags, validate the merged options, then run the selected formatter. -/
def format (query : String) (cfg : PartialFormatOptions) : Except FormatError String :=
  match validateQuery query with
  | Except.error e => Except.error e
  | Except.ok _ =>
    match dialectCheck cfg with
    | Except.error e => Except.error e
    | Except.ok _ =>
      match validateConfig (mergeOptions cfg) with
      | Except.error e => Except.error e
      | Except.ok options => Except.ok (formatQueryString options query)

instance : DecidableEq (Except FormatError String) := fun
  | Except.ok a, Except.ok b =>
    if h : a = b then isTrue (by rw [h]) else isFalse (by simp [h])
  | Except.error a, Except.error b =>
    if h : a = b then isTrue (by rw [h]) else isFalse (by simp [h])
  | Except.ok _, Except.error _ => isFalse (by simp)
  | Except.error _, Except.ok _ => isFalse (by simp)

/-! ### Material for the theorems: sample tokens, the spec's dialect-tag set,
and the token relation used to transport neighbour lookups across the
disambiguator's passes -/

def sampleCommaToken : Token :=
  { type := TokenType.OPERATOR, raw := ",", text := ",", value := ",", whitespaceBefore := "" }

def sampleSemiToken : Token :=
  { type := TokenType.OPERATOR, raw := ";", text := ";", value := ";", whitespaceBefore := "" }

def sampleAndToken : Token :=
  { type := TokenType.RESERVED_LOGICAL_OPERATOR, raw := "and", text := "and", value := "and",
    whitespaceBefore := " " }

def sampleBetweenToken : Token :=
  { type := TokenType.RESERVED_KEYWORD, raw := "between", text := "between",
    value := "between", whitespaceBefore := " " }

def sampleSelectToken : Token :=
  { type := TokenType.RESERVED_COMMAND, raw := "select", text := "select", value := "select",
    whitespaceBefore := "" }

def sampleCaseToken : Token :=
  { type := TokenType.RESERVED_CASE_START, raw := "case", text := "case", value := "case",
    whitespaceBefore := " " }

def sampleFuncToken : Token :=
  { type := TokenType.RESERVED_FUNCTION_NAME, raw := "count", text := "count",
    value := "count", whitespaceBefore := " " }

def sampleOpenParenToken : Token :=
  { type := TokenType.OPEN_PAREN, raw := "(", text := "(", value := "(",
    whitespaceBefore := "" }

def sampleDotToken : Token :=
  { type := TokenType.PROPERTY_ACCESS_OPERATOR, raw := ".", text := ".", value := ".",
    whitespaceBefore := "" }

def sampleIdentToken (v : String) : Token :=
  { type := TokenType.IDENTIFIER, raw := v, text := v, value := v, whitespaceBefore := " " }

def sampleNumToken (v : String) : Token :=
  { type := TokenType.NUMBER, raw := v, text := v, value := v, whitespaceBefore := " " }

def sampleLineCommentToken : Token :=
  { type := TokenType.LINE_COMMENT, raw := "--c", text := "--c", value := "--c",
    whitespaceBefore := " " }

/-- The claim's closed set of supported dialect tags, as the spec lists it
(spec §6 "Supported dialect tags"), to be compared with the source's
`supportedDialects`. -/
def specDialectTags : List String :=
  ["sql", "bigquery", "db2", "hive", "mariadb", "mysql", "n1ql", "plsql", "postgresql",
   "redshift", "singlestoredb", "snowflake", "spark", "sqlite", "transactsql", "tsql",
   "trino"]

/-- The options used to exhibit the idempotence failure: the multiline
decision is driven purely by the projected inline width, with a small cap. -/
def widthFlipOptions : PartialFormatOptions :=
  { multilineLists := some MultilineLists.expressionWidth, expressionWidth := some 10 }

/-- True when a token's nearest non-comment neighbour on either side is a
`PROPERTY_ACCESS_OPERATOR` (the condition checked by
`propertyNameKeywordToIdent`). -/
def hasDotNeighbor (tokens : List Token) (k : Nat) : Bool :=
  (prevNonCommentToken tokens k).any isDot || (nextNonCommentToken tokens k).any isDot

/-- Pointwise frame relation at index `k` between a pass's input and output:
`value` and `whitespaceBefore` agree, and comment tokens pass through
unchanged. -/
def frameAt (a b : List Token) (k : Nat) : Prop :=
  (b.getD k EOF_TOKEN).value = (a.getD k EOF_TOKEN).value ∧
  (b.getD k EOF_TOKEN).whitespaceBefore = (a.getD k EOF_TOKEN).whitespaceBefore ∧
  (isComment (a.getD k EOF_TOKEN) = true → b.getD k EOF_TOKEN = a.getD k EOF_TOKEN)

/-- The facts about a token that neighbour lookups in the disambiguator's
passes depend on: being a comment, being `(` or `[`, being a property-access
operator.  Every pass preserves all four pointwise, which lets neighbour
lookups be transported between passes. -/
def tokRel (a b : Token) : Prop :=
  isComment a = isComment b ∧ isOpenParen a = isOpenParen b ∧
    isOpenBracket a = isOpenBracket b ∧ isDot a = isDot b

/-! ### Helper lemmas about the disambiguator's passes -/

theorem getD_out_of_range {l : List Token} {k : Nat} (h : l.length ≤ k) :
    l.getD k EOF_TOKEN = EOF_TOKEN := by
  simp [List.getD_eq_getElem?_getD, List.getElem?_eq_none h]

theorem jsMapFrom_length (f : Token → Nat → List Token → Token) (orig : List Token) :
    ∀ (i : Nat) (l : List Token), (jsMapFrom f orig i l).length = l.length := by
  intro i l
  induction l generalizing i with
  | nil => rfl
  | cons t rest ih => simp [jsMapFrom, ih]

theorem jsMap_length (f : Token → Nat → List Token → Token) (ts : List Token) :
    (jsMap f ts).length = ts.length :=
  jsMapFrom_length f ts 0 ts

theorem jsMapFrom_getD (f : Token → Nat → List Token → Token) (orig : List Token) :
    ∀ (l : List Token) (i k : Nat), k < l.length →
      (jsMapFrom f orig i l).getD k EOF_TOKEN = f (l.getD k EOF_TOKEN) (i + k) orig := by
  intro l
  induction l with
  | nil => intro i k h; exact absurd h (by simp)
  | cons t rest ih =>
    intro i k h
    cases k with
    | zero => simp [jsMapFrom]
    | succ k =>
      have hk : k < rest.length := by simpa using h
      have := ih (i + 1) k hk
      simpa [jsMapFrom, Nat.add_assoc, Nat.add_comm 1 k] using this

theorem jsMap_getD (f : Token → Nat → List Token → Token) (ts : List Token) (k : Nat)
    (h : k < ts.length) :
    (jsMap f ts).getD k EOF_TOKEN = f (ts.getD k EOF_TOKEN) k ts := by
  simpa using jsMapFrom_getD f ts ts 0 k h

theorem jsMapFrom_forall2 (f : Token → Nat → List Token → Token) (orig : List Token)
    (hf : ∀ (t : Token) (i : Nat), tokRel t (f t i orig)) :
    ∀ (i : Nat) (l : List Token), List.Forall₂ tokRel l (jsMapFrom f orig i l) := by
  intro i l
  induction l generalizing i with
  | nil => exact List.Forall₂.nil
  | cons t rest ih => exact List.Forall₂.cons (hf t i) (ih (i + 1))

theorem jsMap_forall2 (f : Token → Nat → List Token → Token) (ts : List Token)
    (hf : ∀ (t : Token) (i : Nat), tokRel t (f t i ts)) :
    List.Forall₂ tokRel ts (jsMap f ts) :=
  jsMapFrom_forall2 f ts hf 0 ts

theorem isReserved_ne_special :
    ∀ tt : TokenType, isReserved tt = true →
      (tt == TokenType.BLOCK_COMMENT) = false ∧ (tt == TokenType.LINE_COMMENT) = false ∧
      (tt == TokenType.OPEN_PAREN) = false ∧
      (tt == TokenType.PROPERTY_ACCESS_OPERATOR) = false := by
  decide

theorem tokRel_refl (t : Token) : tokRel t t := ⟨rfl, rfl, rfl, rfl⟩

theorem tokRel_rewrite {t : Token} (h : isReserved t.type = true) :
    tokRel t { t with type := TokenType.IDENTIFIER, text := t.raw } := by
  obtain ⟨h1, h2, h3, h4⟩ := isReserved_ne_special t.type h
  exact ⟨by simp [isComment, h1, h2], by simp [isOpenParen, h3],
    by simp [isOpenBracket, h3], by simp [isDot, h4]⟩

theorem tokRel_propertyNameKeywordToIdent (t : Token) (i : Nat) (o : List Token) :
    tokRel t (propertyNameKeywordToIdent t i o) := by
  unfold propertyNameKeywordToIdent
  split_ifs with h1 h2 h3
  · exact tokRel_rewrite h1
  · exact tokRel_rewrite h1
  · exact tokRel_refl t
  · exact tokRel_refl t

theorem tokRel_funcNameToIdent (t : Token) (i : Nat) (o : List Token) :
    tokRel t (funcNameToIdent t i o) := by
  unfold funcNameToIdent
  split_ifs with h1 h2
  · have ht : t.type = TokenType.RESERVED_FUNCTION_NAME := by
      simpa using h1
    exact tokRel_rewrite (by rw [ht]; rfl)
  · exact tokRel_refl t
  · exact tokRel_refl t

theorem tokRel_dataTypeToParameterizedDataType (t : Token) (i : Nat) (o : List Token) :
    tokRel t (dataTypeToParameterizedDataType t i o) := by
  unfold dataTypeToParameterizedDataType
  split_ifs with h1 h2
  · have ht : t.type = TokenType.RESERVED_DATA_TYPE := by simpa using h1
    exact ⟨by simp only [isComment, ht]; rfl, by simp only [isOpenParen, ht]; rfl,
      by simp only [isOpenBracket, ht]; rfl, by simp only [isDot, ht]; rfl⟩
  · exact tokRel_refl t
  · exact tokRel_refl t

theorem tokRel_identToArrayIdent (t : Token) (i : Nat) (o : List Token) :
    tokRel t (identToArrayIdent t i o) := by
  unfold identToArrayIdent
  split_ifs with h1 h2
  · have ht : t.type = TokenType.IDENTIFIER := by simpa using h1
    exact ⟨by simp only [isComment, ht]; rfl, by simp only [isOpenParen, ht]; rfl,
      by simp only [isOpenBracket, ht]; rfl, by simp only [isDot, ht]; rfl⟩
  · exact tokRel_refl t
  · exact tokRel_refl t

theorem tokRel_dataTypeToArrayKeyword (t : Token) (i : Nat) (o : List Token) :
    tokRel t (dataTypeToArrayKeyword t i o) := by
  unfold dataTypeToArrayKeyword
  split_ifs with h1 h2
  · have ht : t.type = TokenType.RESERVED_DATA_TYPE := by simpa using h1
    exact ⟨by simp only [isComment, ht]; rfl, by simp only [isOpenParen, ht]; rfl,
      by simp only [isOpenBracket, ht]; rfl, by simp only [isDot, ht]; rfl⟩
  · exact tokRel_refl t
  · exact tokRel_refl t

theorem find_nonComment_any_congr (p : Token → Bool)
    (hp : ∀ a b, tokRel a b → p a = p b) :
    ∀ {l l' : List Token}, List.Forall₂ tokRel l l' →
      ((l.find? (fun t => !isComment t)).any p) =
        ((l'.find? (fun t => !isComment t)).any p) := by
  intro l l' h
  induction h with
  | nil => rfl
  | @cons a b l l' hab htail ih =>
    by_cases hc : isComment a
    · have hc' : isComment b = true := by rw [← hab.1]; exact hc
      rw [List.find?_cons_of_neg _ (by simp [hc]), List.find?_cons_of_neg _ (by simp [hc'])]
      exact ih
    · have hc' : ¬ (isComment b = true) := by rw [← hab.1]; exact hc
      rw [List.find?_cons_of_pos _ (by simp [hc]), List.find?_cons_of_pos _ (by simp [hc'])]
      simpa using hp a b hab

theorem nextNonComment_any_congr (p : Token → Bool)
    (hp : ∀ a b, tokRel a b → p a = p b)
    {l l' : List Token} (h : List.Forall₂ tokRel l l') (i : Nat) :
    ((nextNonCommentToken l i).any p) = ((nextNonCommentToken l' i).any p) :=
  find_nonComment_any_congr p hp (List.forall₂_drop (i + 1) h)

theorem prevNonComment_any_congr (p : Token → Bool)
    (hp : ∀ a b, tokRel a b → p a = p b)
    {l l' : List Token} (h : List.Forall₂ tokRel l l') (i : Nat) :
    ((prevNonCommentToken l i).any p) = ((prevNonCommentToken l' i).any p) :=
  find_nonComment_any_congr p hp
    (List.forall₂_reverse_iff.mpr (List.forall₂_take i h))

theorem tokRel_isOpenParen : ∀ a b, tokRel a b → isOpenParen a = isOpenParen b :=
  fun _ _ h => h.2.1

theorem tokRel_isDot : ∀ a b, tokRel a b → isDot a = isDot b :=
  fun _ _ h => h.2.2.2

theorem hasDotNeighbor_congr {l l' : List Token} (h : List.Forall₂ tokRel l l') (k : Nat) :
    hasDotNeighbor l k = hasDotNeighbor l' k := by
  unfold hasDotNeighbor
  rw [prevNonComment_any_congr isDot tokRel_isDot h k,
    nextNonComment_any_congr isDot tokRel_isDot h k]

theorem option_any_exists {o : Option Token} {p : Token → Bool} (h : o.any p = true) :
    ∃ t, o = some t ∧ p t = true := by
  cases o with
  | none => simp [Option.any] at h
  | some t => exact ⟨t, rfl, by simpa [Option.any] using h⟩

theorem funcNameToIdent_result_fn {t : Token} {i : Nat} {o : List Token}
    (h : (funcNameToIdent t i o).type = TokenType.RESERVED_FUNCTION_NAME) :
    (nextNonCommentToken o i).any isOpenParen = true := by
  unfold funcNameToIdent at h
  split_ifs at h with h1 h2
  · simpa using h2
  · simp [h] at h1

theorem dataTypeToParameterizedDataType_fn_back {t : Token} {i : Nat} {o : List Token}
    (h : (dataTypeToParameterizedDataType t i o).type = TokenType.RESERVED_FUNCTION_NAME) :
    t.type = TokenType.RESERVED_FUNCTION_NAME := by
  unfold dataTypeToParameterizedDataType at h
  split_ifs at h <;> exact h

theorem identToArrayIdent_fn_back {t : Token} {i : Nat} {o : List Token}
    (h : (identToArrayIdent t i o).type = TokenType.RESERVED_FUNCTION_NAME) :
    t.type = TokenType.RESERVED_FUNCTION_NAME := by
  unfold identToArrayIdent at h
  split_ifs at h <;> exact h

theorem dataTypeToArrayKeyword_fn_back {t : Token} {i : Nat} {o : List Token}
    (h : (dataTypeToArrayKeyword t i o).type = TokenType.RESERVED_FUNCTION_NAME) :
    t.type = TokenType.RESERVED_FUNCTION_NAME := by
  unfold dataTypeToArrayKeyword at h
  split_ifs at h <;> exact h

theorem jsMap_getD_fn_back
    (f : Token → Nat → List Token → Token)
    (hback : ∀ {t : Token} {i : Nat} {o : List Token},
      (f t i o).type = TokenType.RESERVED_FUNCTION_NAME →
      t.type = TokenType.RESERVED_FUNCTION_NAME)
    (l : List Token) (k : Nat) (hk : k < l.length)
    (h : ((jsMap f l).getD k EOF_TOKEN).type = TokenType.RESERVED_FUNCTION_NAME) :
    (l.getD k EOF_TOKEN).type = TokenType.RESERVED_FUNCTION_NAME := by
  rw [jsMap_getD f l k hk] at h
  exact hback h

theorem propertyNameKeywordToIdent_result_reserved {t : Token} {i : Nat} {o : List Token}
    (h : isReserved (propertyNameKeywordToIdent t i o).type = true) :
    (prevNonCommentToken o i).any isDot = false ∧
      (nextNonCommentToken o i).any isDot = false := by
  unfold propertyNameKeywordToIdent at h
  split_ifs at h with h1 h2 h3
  · exact absurd (show isReserved TokenType.IDENTIFIER = true from h) (by decide)
  · exact absurd (show isReserved TokenType.IDENTIFIER = true from h) (by decide)
  · exact ⟨by simpa using h2, by simpa using h3⟩
  · exact absurd h h1

theorem funcNameToIdent_reserved_back {t : Token} {i : Nat} {o : List Token}
    (h : isReserved (funcNameToIdent t i o).type = true) :
    isReserved t.type = true := by
  unfold funcNameToIdent at h
  split_ifs at h with h1 h2
  · exact absurd (show isReserved TokenType.IDENTIFIER = true from h) (by decide)
  · exact h
  · exact h

theorem dataTypeToParameterizedDataType_reserved_back {t : Token} {i : Nat} {o : List Token}
    (h : isReserved (dataTypeToParameterizedDataType t i o).type = true) :
    isReserved t.type = true := by
  unfold dataTypeToParameterizedDataType at h
  split_ifs at h with h1 h2
  · have ht : t.type = TokenType.RESERVED_DATA_TYPE := by simpa using h1
    rw [ht]
    rfl
  · exact h
  · exact h

theorem identToArrayIdent_reserved_back {t : Token} {i : Nat} {o : List Token}
    (h : isReserved (identToArrayIdent t i o).type = true) :
    isReserved t.type = true := by
  unfold identToArrayIdent at h
  split_ifs at h with h1 h2
  · exact absurd (show isReserved TokenType.ARRAY_IDENTIFIER = true from h) (by decide)
  · exact h
  · exact h

theorem dataTypeToArrayKeyword_reserved_back {t : Token} {i : Nat} {o : List Token}
    (h : isReserved (dataTypeToArrayKeyword t i o).type = true) :
    isReserved t.type = true := by
  unfold dataTypeToArrayKeyword at h
  split_ifs at h with h1 h2
  · exact absurd (show isReserved TokenType.ARRAY_KEYWORD = true from h) (by decide)
  · exact h
  · exact h

theorem isComment_type {t : Token} (hc : isComment t = true) :
    t.type = TokenType.BLOCK_COMMENT ∨ t.type = TokenType.LINE_COMMENT := by
  have hc2 : (t.type == TokenType.BLOCK_COMMENT) = true ∨
      (t.type == TokenType.LINE_COMMENT) = true := by
    have := hc
    unfold isComment at this
    exact Bool.or_eq_true _ _ |>.mp this
  rcases hc2 with h | h
  · exact Or.inl (by simpa using h)
  · exact Or.inr (by simpa using h)

theorem frame_propertyNameKeywordToIdent (t : Token) (i : Nat) (o : List Token) :
    (propertyNameKeywordToIdent t i o).value = t.value ∧
    (propertyNameKeywordToIdent t i o).whitespaceBefore = t.whitespaceBefore ∧
    (isComment t = true → propertyNameKeywordToIdent t i o = t) := by
  unfold propertyNameKeywordToIdent
  split_ifs with h1 h2 h3
  · exact ⟨rfl, rfl, fun hc => by
      rcases isComment_type hc with h | h <;> rw [h] at h1 <;> exact absurd h1 (by decide)⟩
  · exact ⟨rfl, rfl, fun hc => by
      rcases isComment_type hc with h | h <;> rw [h] at h1 <;> exact absurd h1 (by decide)⟩
  · exact ⟨rfl, rfl, fun _ => rfl⟩
  · exact ⟨rfl, rfl, fun _ => rfl⟩

theorem frame_funcNameToIdent (t : Token) (i : Nat) (o : List Token) :
    (funcNameToIdent t i o).value = t.value ∧
    (funcNameToIdent t i o).whitespaceBefore = t.whitespaceBefore ∧
    (isComment t = true → funcNameToIdent t i o = t) := by
  unfold funcNameToIdent
  split_ifs with h1 h2
  · exact ⟨rfl, rfl, fun hc => by
      rcases isComment_type hc with h | h <;> rw [h] at h1 <;> exact absurd h1 (by decide)⟩
  · exact ⟨rfl, rfl, fun _ => rfl⟩
  · exact ⟨rfl, rfl, fun _ => rfl⟩

theorem frame_dataTypeToParameterizedDataType (t : Token) (i : Nat) (o : List Token) :
    (dataTypeToParameterizedDataType t i o).value = t.value ∧
    (dataTypeToParameterizedDataType t i o).whitespaceBefore = t.whitespaceBefore ∧
    (isComment t = true → dataTypeToParameterizedDataType t i o = t) := by
  unfold dataTypeToParameterizedDataType
  split_ifs with h1 h2
  · exact ⟨rfl, rfl, fun hc => by
      rcases isComment_type hc with h | h <;> rw [h] at h1 <;> exact absurd h1 (by decide)⟩
  · exact ⟨rfl, rfl, fun _ => rfl⟩
  · exact ⟨rfl, rfl, fun _ => rfl⟩

theorem frame_identToArrayIdent (t : Token) (i : Nat) (o : List Token) :
    (identToArrayIdent t i o).value = t.value ∧
    (identToArrayIdent t i o).whitespaceBefore = t.whitespaceBefore ∧
    (isComment t = true → identToArrayIdent t i o = t) := by
  unfold identToArrayIdent
  split_ifs with h1 h2
  · exact ⟨rfl, rfl, fun hc => by
      rcases isComment_type hc with h | h <;> rw [h] at h1 <;> exact absurd h1 (by decide)⟩
  · exact ⟨rfl, rfl, fun _ => rfl⟩
  · exact ⟨rfl, rfl, fun _ => rfl⟩

theorem frame_dataTypeToArrayKeyword (t : Token) (i : Nat) (o : List Token) :
    (dataTypeToArrayKeyword t i o).value = t.value ∧
    (dataTypeToArrayKeyword t i o).whitespaceBefore = t.whitespaceBefore ∧
    (isComment t = true → dataTypeToArrayKeyword t i o = t) := by
  unfold dataTypeToArrayKeyword
  split_ifs with h1 h2
  · exact ⟨rfl, rfl, fun hc => by
      rcases isComment_type hc with h | h <;> rw [h] at h1 <;> exact absurd h1 (by decide)⟩
  · exact ⟨rfl, rfl, fun _ => rfl⟩
  · exact ⟨rfl, rfl, fun _ => rfl⟩

theorem jsMap_frameAt (f : Token → Nat → List Token → Token)
    (hf : ∀ (t : Token) (i : Nat) (o : List Token),
      (f t i o).value = t.value ∧ (f t i o).whitespaceBefore = t.whitespaceBefore ∧
      (isComment t = true → f t i o = t))
    (ts : List Token) (k : Nat) : frameAt ts (jsMap f ts) k := by
  by_cases hk : k < ts.length
  · rw [frameAt, jsMap_getD f ts k hk]
    exact hf (ts.getD k EOF_TOKEN) k ts
  · have h1 : ts.getD k EOF_TOKEN = EOF_TOKEN := getD_out_of_range (by omega)
    have h2 : (jsMap f ts).getD k EOF_TOKEN = EOF_TOKEN :=
      getD_out_of_range (by rw [jsMap_length]; omega)
    rw [frameAt, h1, h2]
    exact ⟨rfl, rfl, fun _ => rfl⟩

theorem frameAt_trans {a b c : List Token} {k : Nat}
    (h1 : frameAt a b k) (h2 : frameAt b c k) : frameAt a c k := by
  obtain ⟨v1, w1, c1⟩ := h1
  obtain ⟨v2, w2, c2⟩ := h2
  refine ⟨v2.trans v1, w2.trans w1, fun hc => ?_⟩
  have e1 := c1 hc
  have hc2 : isComment (b.getD k EOF_TOKEN) = true := by rw [e1]; exact hc
  rw [c2 hc2, e1]

theorem supportedDialects_mem (s : String) :
    s ∈ supportedDialects ↔ s ∈ specDialectTags := by
  simp only [supportedDialects, formatters, specDialectTags, List.map_cons, List.map_nil,
    List.mem_cons, List.not_mem_nil]
  tauto

/-! ### Claim theorems -/

set_option maxRecDepth 10000

/-- C1: the spec's idempotence law `format(format(q, o), o) === format(q, o)`
fails on the code.  With `multilineLists: 'expressionWidth'` and
`expressionWidth: 10`, the query `"   select aaa;"` formats to
`"select\n  aaa;"` (the leading whitespace is counted by `inlineWidth`, which
reads the command token's `whitespaceBefore`, pushing the projected width to
13 > 10), but formatting that output again yields `"select aaa;"` (the
whitespace is gone, the width is 10 ≤ 10), so the two differ. -/
theorem format_width_flip_idempotence_failure :
    format ("   select aaa;") widthFlipOptions = Except.ok ("select\n  aaa;") ∧
    format ("select\n  aaa;") widthFlipOptions = Except.ok ("select aaa;") ∧
    ("select\n  aaa;" : String) ≠ ("select aaa;" : String) :=
  ⟨by decide, by decide, by decide⟩

/-- C2 counterexample: it is not the case that a comma outside an inline
block, with the latest reserved token not `LIMIT`, is always followed by a
newline — `formatComma` also requires `currentNewline`; in single-line mode
(`currentNewline = false`) no newline is emitted. -/
theorem formatComma_newline_needs_multiline_cex :
    ¬ (∀ (cfg : FormatOptions) (token : Token) (st : FmtState),
        st.inlineLevel = 0 → isTok ("LIMIT") st.previousReservedToken = false →
        (formatComma cfg token st).query =
          sbAddNewline (getIndent cfg st)
            (sbAddWithSpaceAfter (showToken cfg token) st.query)) := by
  intro h
  have hx := h defaultOptions sampleCommaToken
    { initialFmtState [] with query := "x", currentNewline := false } rfl (by decide)
  exact absurd hx (by decide)

/-- C2 (amended): `formatComma` emits the comma glued to the left with a
trailing space, and follows it with a newline if and only if no inline block
is active, the latest reserved token is not `LIMIT`, and the formatter is in
multi-line mode (`currentNewline`). -/
theorem formatComma_characterization (cfg : FormatOptions) (token : Token) (st : FmtState) :
    formatComma cfg token st =
      { st with query :=
          if st.inlineLevel = 0 ∧ isTok ("LIMIT") st.previousReservedToken = false ∧
              st.currentNewline = true then
            sbAddNewline (getIndent cfg st) (sbAddWithSpaceAfter (showToken cfg token) st.query)
          else sbAddWithSpaceAfter (showToken cfg token) st.query } := by
  unfold formatComma
  by_cases h1 : st.inlineLevel = 0
  · by_cases h2 : isTok ("LIMIT") st.previousReservedToken
    · simp [h1, h2]
    · by_cases h3 : st.currentNewline <;> simp [h1, h2, h3]
  · simp [h1, Nat.pos_of_ne_zero h1]

/-- C3: when the previous command token is `SELECT` and the tokens up to the
next command or query end contain a `CASE`, `checkNewline` returns true for
every `multilineLists` policy (the override precedes the policy switch). -/
theorem checkNewline_select_with_case_forces_multiline
    (cfg : FormatOptions) (token : Token) (st : FmtState)
    (hsel : isWithinSelect st = true)
    (hcase : (tokensUntilNextCommandOrQueryEnd st.tokens st.index).any
      (isTok ("CASE")) = true) :
    checkNewline cfg token st = true := by
  simp [checkNewline, hsel, hcase]

/-- C3 witness: `select case ... ;` under `multilineLists: 'avoid'` still
decides multi-line. -/
theorem checkNewline_select_with_case_forces_multiline_witness :
    checkNewline { defaultOptions with multilineLists := MultilineLists.avoid }
      sampleSelectToken
      { initialFmtState [sampleSelectToken, sampleCaseToken, sampleSemiToken] with
        previousCommandToken := sampleSelectToken } = true :=
  checkNewline_select_with_case_forces_multiline _ _ _ (by decide) (by decide)

/-- C4: in the output of `disambiguateTokens`, every `RESERVED_FUNCTION_NAME`
token is immediately followed, ignoring comments, by an open-paren `(`; and
the `funcNameToIdent` pass rewrites any `RESERVED_FUNCTION_NAME` not so
followed to `IDENTIFIER`. -/
theorem disambiguate_function_name_paren_invariant :
    (∀ (ts : List Token) (k : Nat),
      ((disambiguateTokens ts).getD k EOF_TOKEN).type = TokenType.RESERVED_FUNCTION_NAME →
      ∃ nt, nextNonCommentToken (disambiguateTokens ts) k = some nt ∧
        isOpenParen nt = true) ∧
    (∀ (ts : List Token) (k : Nat), k < ts.length →
      (ts.getD k EOF_TOKEN).type = TokenType.RESERVED_FUNCTION_NAME →
      (nextNonCommentToken ts k).any isOpenParen = false →
      ((jsMap funcNameToIdent ts).getD k EOF_TOKEN).type = TokenType.IDENTIFIER) := by
  constructor
  · intro ts k h
    have e : disambiguateTokens ts =
        jsMap dataTypeToArrayKeyword (jsMap identToArrayIdent
          (jsMap dataTypeToParameterizedDataType (jsMap funcNameToIdent
            (jsMap propertyNameKeywordToIdent ts)))) := rfl
    rw [e] at h ⊢
    generalize hl1 : jsMap propertyNameKeywordToIdent ts = l1 at h ⊢
    generalize hl2 : jsMap funcNameToIdent l1 = l2 at h ⊢
    generalize hl3 : jsMap dataTypeToParameterizedDataType l2 = l3 at h ⊢
    generalize hl4 : jsMap identToArrayIdent l3 = l4 at h ⊢
    have len4 : l4.length = l3.length := by rw [← hl4]; exact jsMap_length _ _
    have len3 : l3.length = l2.length := by rw [← hl3]; exact jsMap_length _ _
    have len2 : l2.length = l1.length := by rw [← hl2]; exact jsMap_length _ _
    by_cases hk4 : k < l4.length
    · have hk3 : k < l3.length := by omega
      have hk2 : k < l2.length := by omega
      have hk1 : k < l1.length := by omega
      have h4 : (l4.getD k EOF_TOKEN).type = TokenType.RESERVED_FUNCTION_NAME := by
        rw [← hl4] at hk4 h ⊢
        exact jsMap_getD_fn_back dataTypeToArrayKeyword
          (fun hh => dataTypeToArrayKeyword_fn_back hh) _ k hk4 h
      have h3 : (l3.getD k EOF_TOKEN).type = TokenType.RESERVED_FUNCTION_NAME := by
        rw [← hl4] at h4
        exact jsMap_getD_fn_back identToArrayIdent (fun hh => identToArrayIdent_fn_back hh)
          l3 k hk3 h4
      have h2 : (l2.getD k EOF_TOKEN).type = TokenType.RESERVED_FUNCTION_NAME := by
        rw [← hl3] at h3
        exact jsMap_getD_fn_back dataTypeToParameterizedDataType
          (fun hh => dataTypeToParameterizedDataType_fn_back hh) l2 k hk2 h3
      have hAny1 : (nextNonCommentToken l1 k).any isOpenParen = true := by
        rw [← hl2, jsMap_getD funcNameToIdent l1 k hk1] at h2
        exact funcNameToIdent_result_fn h2
      have t2 : (nextNonCommentToken l2 k).any isOpenParen = true := by
        rw [← hl2, ← nextNonComment_any_congr isOpenParen tokRel_isOpenParen
          (jsMap_forall2 funcNameToIdent l1 (fun t i => tokRel_funcNameToIdent t i l1)) k]
        exact hAny1
      have t3 : (nextNonCommentToken l3 k).any isOpenParen = true := by
        rw [← hl3, ← nextNonComment_any_congr isOpenParen tokRel_isOpenParen
          (jsMap_forall2 dataTypeToParameterizedDataType l2
            (fun t i => tokRel_dataTypeToParameterizedDataType t i l2)) k]
        exact t2
      have t4 : (nextNonCommentToken l4 k).any isOpenParen = true := by
        rw [← hl4, ← nextNonComment_any_congr isOpenParen tokRel_isOpenParen
          (jsMap_forall2 identToArrayIdent l3 (fun t i => tokRel_identToArrayIdent t i l3)) k]
        exact t3
      have t5 : (nextNonCommentToken (jsMap dataTypeToArrayKeyword l4) k).any
          isOpenParen = true := by
        rw [← nextNonComment_any_congr isOpenParen tokRel_isOpenParen
          (jsMap_forall2 dataTypeToArrayKeyword l4
            (fun t i => tokRel_dataTypeToArrayKeyword t i l4)) k]
        exact t4
      exact option_any_exists t5
    · exfalso
      have hlen : (jsMap dataTypeToArrayKeyword l4).length ≤ k := by
        rw [jsMap_length]
        omega
      rw [getD_out_of_range hlen] at h
      exact absurd h (by decide)
  · intro ts k hk hfn hnop
    rw [jsMap_getD _ _ _ hk]
    unfold funcNameToIdent
    rw [hfn, hnop]
    rfl

/-- C4 witness: `count (` keeps its function-name category and is followed by
`(`; a bare `count` with nothing after it is rewritten to an identifier by
the `funcNameToIdent` pass. -/
theorem disambiguate_function_name_paren_invariant_witness :
    (∃ nt, nextNonCommentToken (disambiguateTokens
        [sampleFuncToken, sampleOpenParenToken]) 0 = some nt ∧ isOpenParen nt = true) ∧
    ((jsMap funcNameToIdent [sampleFuncToken]).getD 0 EOF_TOKEN).type =
      TokenType.IDENTIFIER :=
  ⟨disambiguate_function_name_paren_invariant.1 [sampleFuncToken, sampleOpenParenToken] 0
      (by decide),
    disambiguate_function_name_paren_invariant.2 [sampleFuncToken] 0 (by decide) (by decide)
      (by decide)⟩

/-- C5: in the output of `disambiguateTokens`, no `RESERVED_*` token has a
`PROPERTY_ACCESS_OPERATOR` as its nearest non-comment neighbour on either
side; and the `propertyNameKeywordToIdent` pass rewrites any reserved token
with such a neighbour to `IDENTIFIER` with its text set to its raw form. -/
theorem disambiguate_reserved_near_property_access :
    (∀ (ts : List Token) (k : Nat),
      isReserved ((disambiguateTokens ts).getD k EOF_TOKEN).type = true →
      hasDotNeighbor (disambiguateTokens ts) k = false) ∧
    (∀ (ts : List Token) (k : Nat), k < ts.length →
      isReserved (ts.getD k EOF_TOKEN).type = true →
      hasDotNeighbor ts k = true →
      (jsMap propertyNameKeywordToIdent ts).getD k EOF_TOKEN =
        { ts.getD k EOF_TOKEN with
          type := TokenType.IDENTIFIER,
          text := (ts.getD k EOF_TOKEN).raw }) := by
  constructor
  · intro ts k h
    have e : disambiguateTokens ts =
        jsMap dataTypeToArrayKeyword (jsMap identToArrayIdent
          (jsMap dataTypeToParameterizedDataType (jsMap funcNameToIdent
            (jsMap propertyNameKeywordToIdent ts)))) := rfl
    rw [e] at h ⊢
    generalize hl1 : jsMap propertyNameKeywordToIdent ts = l1 at h ⊢
    generalize hl2 : jsMap funcNameToIdent l1 = l2 at h ⊢
    generalize hl3 : jsMap dataTypeToParameterizedDataType l2 = l3 at h ⊢
    generalize hl4 : jsMap identToArrayIdent l3 = l4 at h ⊢
    have len4 : l4.length = l3.length := by rw [← hl4]; exact jsMap_length _ _
    have len3 : l3.length = l2.length := by rw [← hl3]; exact jsMap_length _ _
    have len2 : l2.length = l1.length := by rw [← hl2]; exact jsMap_length _ _
    have len1 : l1.length = ts.length := by rw [← hl1]; exact jsMap_length _ _
    by_cases hk4 : k < l4.length
    · have hk3 : k < l3.length := by omega
      have hk2 : k < l2.length := by omega
      have hk1 : k < l1.length := by omega
      have hk0 : k < ts.length := by omega
      have h4 : isReserved (l4.getD k EOF_TOKEN).type = true := by
        rw [← hl4] at hk4 h ⊢
        rw [jsMap_getD _ _ _ hk4] at h
        exact dataTypeToArrayKeyword_reserved_back h
      have h3 : isReserved (l3.getD k EOF_TOKEN).type = true := by
        rw [← hl4, jsMap_getD _ _ _ hk3] at h4
        exact identToArrayIdent_reserved_back h4
      have h2 : isReserved (l2.getD k EOF_TOKEN).type = true := by
        rw [← hl3, jsMap_getD _ _ _ hk2] at h3
        exact dataTypeToParameterizedDataType_reserved_back h3
      have h1 : isReserved (l1.getD k EOF_TOKEN).type = true := by
        rw [← hl2, jsMap_getD _ _ _ hk1] at h2
        exact funcNameToIdent_reserved_back h2
      have h0 : (prevNonCommentToken ts k).any isDot = false ∧
          (nextNonCommentToken ts k).any isDot = false := by
        rw [← hl1, jsMap_getD _ _ _ hk0] at h1
        exact propertyNameKeywordToIdent_result_reserved h1
      have d0 : hasDotNeighbor ts k = false := by
        unfold hasDotNeighbor
        rw [h0.1, h0.2]
        rfl
      have d1 : hasDotNeighbor l1 k = false := by
        rw [← hl1, ← hasDotNeighbor_congr (jsMap_forall2 propertyNameKeywordToIdent ts
          (fun t i => tokRel_propertyNameKeywordToIdent t i ts)) k]
        exact d0
      have d2 : hasDotNeighbor l2 k = false := by
        rw [← hl2, ← hasDotNeighbor_congr (jsMap_forall2 funcNameToIdent l1
          (fun t i => tokRel_funcNameToIdent t i l1)) k]
        exact d1
      have d3 : hasDotNeighbor l3 k = false := by
        rw [← hl3, ← hasDotNeighbor_congr (jsMap_forall2 dataTypeToParameterizedDataType l2
          (fun t i => tokRel_dataTypeToParameterizedDataType t i l2)) k]
        exact d2
      have d4 : hasDotNeighbor l4 k = false := by
        rw [← hl4, ← hasDotNeighbor_congr (jsMap_forall2 identToArrayIdent l3
          (fun t i => tokRel_identToArrayIdent t i l3)) k]
        exact d3
      rw [← hasDotNeighbor_congr (jsMap_forall2 dataTypeToArrayKeyword l4
        (fun t i => tokRel_dataTypeToArrayKeyword t i l4)) k]
      exact d4
    · exfalso
      have hlen : (jsMap dataTypeToArrayKeyword l4).length ≤ k := by
        rw [jsMap_length]
        omega
      rw [getD_out_of_range hlen] at h
      exact absurd h (by decide)
  · intro ts k hk hres hdot
    rw [jsMap_getD _ _ _ hk]
    unfold propertyNameKeywordToIdent
    unfold hasDotNeighbor at hdot
    rw [hres]
    by_cases hprev : (prevNonCommentToken ts k).any isDot
    · rw [hprev]
      rfl
    · have hprev' : (prevNonCommentToken ts k).any isDot = false := by simpa using hprev
      have hnext : (nextNonCommentToken ts k).any isDot = true := by
        rw [hprev'] at hdot
        simpa using hdot
      rw [hprev', hnext]
      rfl

/-- C5 witness: a `select` with no dot nearby keeps its reserved category and
the invariant reports no dot neighbour; a reserved `between` directly before
a `.` is rewritten to an identifier carrying its raw text. -/
theorem disambiguate_reserved_near_property_access_witness :
    hasDotNeighbor (disambiguateTokens [sampleSelectToken, sampleIdentToken ("t")]) 0 =
      false ∧
    (jsMap propertyNameKeywordToIdent [sampleBetweenToken, sampleDotToken]).getD 0
        EOF_TOKEN =
      { sampleBetweenToken with
        type := TokenType.IDENTIFIER,
        text := sampleBetweenToken.raw } :=
  ⟨disambiguate_reserved_near_property_access.1 [sampleSelectToken, sampleIdentToken ("t")]
      0 (by decide),
    disambiguate_reserved_near_property_access.2 [sampleBetweenToken, sampleDotToken] 0
      (by decide) (by decide) (by decide)⟩

/-- C6: an `AND` logical operator whose two-behind token is `BETWEEN` skips
the logical-operator newline handling entirely: it is emitted with
surrounding spaces and the state is otherwise unchanged (no newline, no
indentation change). -/
theorem formatLogicalOperator_between_and_inline
    (cfg : FormatOptions) (token : Token) (st : FmtState)
    (hand : isTok ("AND") token = true)
    (hbet : isTok ("BETWEEN") (st.tokenLookBehind 2) = true) :
    formatLogicalOperator cfg token st =
      { st with query := sbAddWithSpaces (showToken cfg token) st.query } := by
  unfold formatLogicalOperator
  simp [hand, hbet]

/-- C6 witness: `x between 1 and` — the `AND` stays on the same line. -/
theorem formatLogicalOperator_between_and_inline_witness :
    formatLogicalOperator defaultOptions sampleAndToken
      { initialFmtState [sampleBetweenToken, sampleNumToken ("1"), sampleAndToken] with
        index := 2, query := "x between 1 " } =
      { initialFmtState [sampleBetweenToken, sampleNumToken ("1"), sampleAndToken] with
        index := 2, query := "x between 1 and " } := by
  have h := formatLogicalOperator_between_and_inline defaultOptions sampleAndToken
    { initialFmtState [sampleBetweenToken, sampleNumToken ("1"), sampleAndToken] with
      index := 2, query := "x between 1 " } (by decide) (by decide)
  rw [h]
  decide

/-- C7: with `multilineLists` an integer `n` and the SELECT-with-CASE
override not applying, `checkNewline` is true iff the clause count of the
tokens up to the next command or query end exceeds `n` or the projected
inline width exceeds `expressionWidth`. -/
theorem checkNewline_integer_mode (cfg : FormatOptions) (token : Token) (st : FmtState)
    (n : Nat) (hn : cfg.multilineLists = MultilineLists.num n)
    (hover : (isWithinSelect st &&
      (tokensUntilNextCommandOrQueryEnd st.tokens st.index).any (isTok ("CASE"))) = false) :
    checkNewline cfg token st =
      (decide (countClauses (tokensUntilNextCommandOrQueryEnd st.tokens st.index) > n) ||
        decide (inlineWidth token (tokensUntilNextCommandOrQueryEnd st.tokens st.index) >
          cfg.expressionWidth)) := by
  simp only [checkNewline, hn, hover]
  simp

/-- C7 witness: `select a, b ;` with `multilineLists: 2` — two clauses do not
exceed 2 and the width stays under 50, so the command stays single-line. -/
theorem checkNewline_integer_mode_witness :
    checkNewline { defaultOptions with multilineLists := MultilineLists.num 2 }
      sampleSelectToken
      (initialFmtState [sampleSelectToken, sampleIdentToken ("a"), sampleCommaToken,
        sampleIdentToken ("b"), sampleSemiToken]) =
      (decide (countClauses (tokensUntilNextCommandOrQueryEnd
          [sampleSelectToken, sampleIdentToken ("a"), sampleCommaToken,
            sampleIdentToken ("b"), sampleSemiToken] 0) > 2) ||
        decide (inlineWidth sampleSelectToken (tokensUntilNextCommandOrQueryEnd
          [sampleSelectToken, sampleIdentToken ("a"), sampleCommaToken,
            sampleIdentToken ("b"), sampleSemiToken] 0) > 50)) :=
  checkNewline_integer_mode _ _ _ 2 rfl (by decide)

/-- C8: `format` throws a `ConfigError` for every query when the options
record's `language` is a string outside the closed set of supported dialect
tags listed by the spec, and for a tag inside that set the unknown-dialect
check passes (formatting then succeeds on the validated options). -/
theorem format_dialect_tag_check (q : String) (cfg : PartialFormatOptions) (s : String)
    (h : cfg.language = some s) :
    (specDialectTags.contains s = false →
      format q cfg = Except.error (FormatError.config ("Unsupported SQL dialect: " ++ s))) ∧
    (specDialectTags.contains s = true → ∃ out, format q cfg = Except.ok out) := by
  constructor
  · intro hfalse
    have hnotmem : ¬ s ∈ supportedDialects := by
      intro hx
      exact absurd ((supportedDialects_mem s).mp hx) (by simpa using hfalse)
    simp [format, validateQuery, dialectCheck, h, hnotmem]
  · intro htrue
    have hmem : s ∈ supportedDialects :=
      (supportedDialects_mem s).mpr (by simpa using htrue)
    refine ⟨formatQueryString (mergeOptions cfg) q, ?_⟩
    simp [format, validateQuery, dialectCheck, h, hmem, validateConfig]

/-- C8 witness: `duckdb` (present in the demo page but not in `formatters`)
is rejected with a `ConfigError`; the alias `tsql` passes the check. -/
theorem format_dialect_tag_check_witness :
    format ("select 1") { language := some ("duckdb") } =
      Except.error (FormatError.config ("Unsupported SQL dialect: " ++ "duckdb")) ∧
    (∃ out, format ("select 1") { language := some ("tsql") } = Except.ok out) :=
  ⟨(format_dialect_tag_check ("select 1") { language := some ("duckdb") } ("duckdb")
      rfl).1 (by decide),
    (format_dialect_tag_check ("select 1") { language := some ("tsql") } ("tsql")
      rfl).2 (by decide)⟩

/-- C9: `disambiguateTokens` returns a list of the same length as its input
and, at every position, preserves the token's `value` and
`whitespaceBefore`; comment tokens pass through entirely unchanged. -/
theorem disambiguate_frame (ts : List Token) :
    (disambiguateTokens ts).length = ts.length ∧
    ∀ k : Nat,
      ((disambiguateTokens ts).getD k EOF_TOKEN).value = (ts.getD k EOF_TOKEN).value ∧
      ((disambiguateTokens ts).getD k EOF_TOKEN).whitespaceBefore =
        (ts.getD k EOF_TOKEN).whitespaceBefore ∧
      (isComment (ts.getD k EOF_TOKEN) = true →
        (disambiguateTokens ts).getD k EOF_TOKEN = ts.getD k EOF_TOKEN) := by
  have e : disambiguateTokens ts =
      jsMap dataTypeToArrayKeyword (jsMap identToArrayIdent
        (jsMap dataTypeToParameterizedDataType (jsMap funcNameToIdent
          (jsMap propertyNameKeywordToIdent ts)))) := rfl
  constructor
  · rw [e, jsMap_length, jsMap_length, jsMap_length, jsMap_length, jsMap_length]
  · intro k
    have f1 := jsMap_frameAt propertyNameKeywordToIdent frame_propertyNameKeywordToIdent ts k
    have f2 := jsMap_frameAt funcNameToIdent frame_funcNameToIdent
      (jsMap propertyNameKeywordToIdent ts) k
    have f3 := jsMap_frameAt dataTypeToParameterizedDataType
      frame_dataTypeToParameterizedDataType
      (jsMap funcNameToIdent (jsMap propertyNameKeywordToIdent ts)) k
    have f4 := jsMap_frameAt identToArrayIdent frame_identToArrayIdent
      (jsMap dataTypeToParameterizedDataType
        (jsMap funcNameToIdent (jsMap propertyNameKeywordToIdent ts))) k
    have f5 := jsMap_frameAt dataTypeToArrayKeyword frame_dataTypeToArrayKeyword
      (jsMap identToArrayIdent (jsMap dataTypeToParameterizedDataType
        (jsMap funcNameToIdent (jsMap propertyNameKeywordToIdent ts)))) k
    have fin := frameAt_trans (frameAt_trans (frameAt_trans (frameAt_trans f1 f2) f3) f4) f5
    rw [e]
    exact fin

/-- C9 witness: a line comment followed by `select` — same length and the
comment token is returned untouched. -/
theorem disambiguate_frame_witness :
    (disambiguateTokens [sampleLineCommentToken, sampleSelectToken]).length =
      ([sampleLineCommentToken, sampleSelectToken] : List Token).length ∧
    (disambiguateTokens [sampleLineCommentToken, sampleSelectToken]).getD 0 EOF_TOKEN =
      ([sampleLineCommentToken, sampleSelectToken] : List Token).getD 0 EOF_TOKEN :=
  ⟨(disambiguate_frame [sampleLineCommentToken, sampleSelectToken]).1,
    ((disambiguate_frame [sampleLineCommentToken, sampleSelectToken]).2 0).2.2 (by decide)⟩

/-- C10: the formatter's neighbour lookups are total — whenever
`index - n` (as an integer) or `index + n` falls outside the token list, the
lookup returns `EOF_TOKEN` rather than failing, so checks such as the
`BETWEEN` lookbehind at the start of a statement never access out of
bounds. -/
theorem tokenLook_out_of_bounds_eof :
    (∀ (ts : List Token) (index n : Nat), index < n ∨ ts.length ≤ index - n →
      tokenLookBehindAt ts index n = EOF_TOKEN) ∧
    (∀ (ts : List Token) (index n : Nat), ts.length ≤ index + n →
      tokenLookAheadAt ts index n = EOF_TOKEN) := by
  constructor
  · intro ts index n h
    unfold tokenLookBehindAt
    by_cases hlt : index < n
    · simp [hlt]
    · have hle : ts.length ≤ index - n := by
        rcases h with h | h
        · exact absurd h hlt
        · exact h
      simp [hlt, List.getD_eq_getElem?_getD, List.getElem?_eq_none hle]
  · intro ts index n h
    unfold tokenLookAheadAt
    simp [List.getD_eq_getElem?_getD, List.getElem?_eq_none h]

/-- C10 witness: the `BETWEEN` lookbehind two tokens before index 0, and a
lookahead past the end, both return `EOF_TOKEN`. -/
theorem tokenLook_out_of_bounds_eof_witness :
    tokenLookBehindAt [sampleAndToken] 0 2 = EOF_TOKEN ∧
    tokenLookAheadAt [sampleAndToken] 0 1 = EOF_TOKEN :=
  ⟨tokenLook_out_of_bounds_eof.1 [sampleAndToken] 0 2 (Or.inl (by decide)),
    tokenLook_out_of_bounds_eof.2 [sampleAndToken] 0 1 (by decide)⟩
